import Mathlib

/-!
# esp32-MPU-driver: unit conversion library and configuration round trips

Shallow embedding of `include/mpu/math.hpp` (namespace `emd::mpu::math`) and of
the parts of the driver that the test-suite `test/mpu-tests/test_mpu.cpp`
exercises.

Modelling conventions.

* C++ `float` values are embedded as exact rationals (`ℚ`): every arithmetic
  operator is the exact one, and the decimal literals (`333.87f`, `98.67f`,
  `1.8f`, ...) denote the decimal fraction that is written.  The statements
  below are therefore statements in exact arithmetic.  For `magAdjust` every
  intermediate value is a dyadic rational that fits the 24-bit significand of
  a binary32 number (`F32Exact`), so for that function the embedding coincides
  with the machine computation.
* Machine integers are `Nat`/`Int`; a conversion to a narrower unsigned type
  is an explicit `% 2^w`.
* The conversion of a floating value to `int16_t` truncates toward zero and is
  undefined when the truncated value is not representable; it is embedded as
  an `Option`.
* The `#if defined CONFIG_...` chip selection is a parameter of type
  `ChipModel`.
-/

namespace emd.mpu

/-! ## Types declared outside the embedded sources -/

/-- Modelled from the spec: the enumeration `accel_fs_t` is declared in
`mpu/types.hpp`, which is not part of the embedded sources.  The accelerometer
full-scale selector has the four enumerators 0, 1, 2, 3. -/
abbrev accel_fs_t := Fin 4

/-- Modelled from the spec: the enumeration `gyro_fs_t` is declared in
`mpu/types.hpp`, which is not part of the embedded sources.  The gyroscope
full-scale selector has the four enumerators 0, 1, 2, 3. -/
abbrev gyro_fs_t := Fin 4

/-- Chip selected at configuration time (`CONFIG_MPU6000`, `CONFIG_MPU6050`,
`CONFIG_MPU6500`, `CONFIG_MPU9150`, `CONFIG_MPU9250`). -/
inductive ChipModel where
  | MPU6000
  | MPU6050
  | MPU6500
  | MPU9150
  | MPU9250
  deriving DecidableEq

/-- Largest value of `int16_t` (`INT16_MAX` of `<stdint.h>`). -/
def INT16_MAX : Int := 32767

/-- Smallest value of `int16_t` (`INT16_MIN` of `<stdint.h>`). -/
def INT16_MIN : Int := -32768

/-- Range of the C++ type `int16_t`. -/
def IsInt16 (x : Int) : Prop := INT16_MIN ≤ x ∧ x ≤ INT16_MAX

instance (x : Int) : Decidable (IsInt16 x) := by
  unfold IsInt16; exact inferInstance

/-- Range of the C++ type `uint8_t`. -/
def IsUInt8 (x : Nat) : Prop := x < 256

instance (x : Nat) : Decidable (IsUInt8 x) := by
  unfold IsUInt8; exact inferInstance

namespace math

/-! ## `math.hpp`: full-scale ranges, sensitivities, resolutions -/

/-- Source: `constexpr uint8_t accelFSRvalue(const accel_fs_t fs) { return 2 << fs; }`.
The shift is done on `int`; the result is converted to `uint8_t`. -/
def accelFSRvalue (fs : accel_fs_t) : Nat := (2 <<< fs.val) % 2 ^ 8

/-- Source: `constexpr uint16_t gyroFSRvalue(const gyro_fs_t fs) { return 250 << fs; }`.
The shift is done on `int`; the result is converted to `uint16_t`. -/
def gyroFSRvalue (fs : gyro_fs_t) : Nat := (250 <<< fs.val) % 2 ^ 16

/-- Source: `constexpr uint16_t accelSensitivity(const accel_fs_t fs) { return 16384 >> fs; }`. -/
def accelSensitivity (fs : accel_fs_t) : Nat := (16384 >>> fs.val) % 2 ^ 16

/-- Source: `constexpr float gyroSensitivity(const gyro_fs_t fs) { return 131.f / (1 << fs); }`. -/
def gyroSensitivity (fs : gyro_fs_t) : ℚ := (131 : ℚ) / ((1 <<< fs.val : Nat) : ℚ)

/-- Source: `return static_cast<float>(accelFSRvalue(fs)) / INT16_MAX;`. -/
def accelResolution (fs : accel_fs_t) : ℚ := ((accelFSRvalue fs : Nat) : ℚ) / (INT16_MAX : ℚ)

/-- Source: `return static_cast<float>(gyroFSRvalue(fs)) / INT16_MAX;`. -/
def gyroResolution (fs : gyro_fs_t) : ℚ := ((gyroFSRvalue fs : Nat) : ℚ) / (INT16_MAX : ℚ)

/-- Source: `inline float accelGravity(const int16_t axis, const accel_fs_t fs)`:
`return axis * accelResolution(fs);`. -/
def accelGravity (axis : Int) (fs : accel_fs_t) : ℚ := (axis : ℚ) * accelResolution fs

/-- Source: `inline float gyroDegPerSec(const int16_t axis, const gyro_fs_t fs)`:
`return axis * gyroResolution(fs);`. -/
def gyroDegPerSec (axis : Int) (fs : gyro_fs_t) : ℚ := (axis : ℚ) * gyroResolution fs

/-! ## `math.hpp`: temperature -/

/-- Source: `constexpr int16_t kRoomTempOffset`, `0` for MPU6500/MPU9250 and
`-521` for MPU6000/MPU6050/MPU9150 (LSB). -/
def kRoomTempOffset : ChipModel → Int
  | .MPU6500 | .MPU9250 => 0
  | .MPU6000 | .MPU6050 | .MPU9150 => -521

/-- Source: `constexpr float kCelsiusOffset`, `21.f` for MPU6500/MPU9250 and
`35.f` for MPU6000/MPU6050/MPU9150 (degrees Celsius). -/
def kCelsiusOffset : ChipModel → ℚ
  | .MPU6500 | .MPU9250 => 21
  | .MPU6000 | .MPU6050 | .MPU9150 => 35

/-- Source: `constexpr float kTempSensitivity`, `333.87f` for MPU6500/MPU9250
and `340.f` for MPU6000/MPU6050/MPU9150 (LSB per degree Celsius). -/
def kTempSensitivity : ChipModel → ℚ
  | .MPU6500 | .MPU9250 => 33387 / 100
  | .MPU6000 | .MPU6050 | .MPU9150 => 340

/-- Source: `constexpr float kTempResolution = 98.67f / INT16_MAX;`. -/
def kTempResolution : ℚ := (9867 / 100 : ℚ) / (INT16_MAX : ℚ)

/-- Source: `constexpr float kFahrenheitOffset = kCelsiusOffset * 1.8f + 32;`. -/
def kFahrenheitOffset (chip : ChipModel) : ℚ := kCelsiusOffset chip * (18 / 10) + 32

/-- Source: `inline float tempCelsius(const int16_t temp)`:
`return (temp - kRoomTempOffset) * kTempResolution + kCelsiusOffset;`.
The subtraction is an `int` subtraction. -/
def tempCelsius (chip : ChipModel) (temp : Int) : ℚ :=
  ((temp - kRoomTempOffset chip : Int) : ℚ) * kTempResolution + kCelsiusOffset chip

/-- Formula documented in the comment of `tempCelsius`:
`TEMP_degC = ((TEMP_OUT - RoomTemp_Offset)/Temp_Sensitivity) + DegreesCelsius_Offset`,
with the constants of the selected chip. -/
def tempCelsiusDocumented (chip : ChipModel) (temp : Int) : ℚ :=
  (((temp - kRoomTempOffset chip : Int) : ℚ) / kTempSensitivity chip) + kCelsiusOffset chip

/-- Source: `inline float tempFahrenheit(const int16_t temp)`:
`return (temp - kRoomTempOffset) * kTempResolution * 1.8f + kFahrenheitOffset;`. -/
def tempFahrenheit (chip : ChipModel) (temp : Int) : ℚ :=
  ((temp - kRoomTempOffset chip : Int) : ℚ) * kTempResolution * (18 / 10) + kFahrenheitOffset chip

/-! ## `math.hpp`: magnetometer sensitivity adjustment -/

/-- Exactly representable binary32 values: an integer significand of fewer
than 24 bits times a power of two with an exponent in the binary32 range.  An
arithmetic operation whose exact result satisfies this predicate is not
rounded. -/
def F32Exact (x : ℚ) : Prop :=
  ∃ m e : Int, |m| < 2 ^ 24 ∧ -149 ≤ e ∧ e ≤ 104 ∧ x = (m : ℚ) * (2 : ℚ) ^ e

/-- Truncation toward zero, the rounding of a floating-integral conversion. -/
def truncToZero (x : ℚ) : Int := if 0 ≤ x then ⌊x⌋ else ⌈x⌉

/-- Conversion of a floating value to `int16_t`: the value is truncated toward
zero; the behaviour is undefined (`none`) when the truncated value cannot be
represented in `int16_t`. -/
def floatToInt16 (x : ℚ) : Option Int :=
  if INT16_MIN ≤ truncToZero x ∧ truncToZero x ≤ INT16_MAX then some (truncToZero x) else none

/-- Source: the local constant of `magAdjust`, `constexpr float factor = 0.5f / 128;`. -/
def magAdjust.factor : ℚ := (5 / 10 : ℚ) / 128

/-- Source: the scale sub-expression of `magAdjust`, `((adjValue - 128) * factor + 1)`.
`adjValue` is promoted to `int` before the subtraction, so the difference is
signed. -/
def magAdjust.scale (adjValue : Nat) : ℚ :=
  (((adjValue : Int) - 128 : Int) : ℚ) * magAdjust.factor + 1

/-- Source: `inline int16_t magAdjust(const int16_t axis, const uint8_t adjValue)`:
`return axis * ((adjValue - 128) * factor + 1);`, the floating product being
converted to the `int16_t` return type. -/
def magAdjust (axis : Int) (adjValue : Nat) : Option Int :=
  floatToInt16 ((axis : ℚ) * magAdjust.scale adjValue)

/-- Formula of the specification for the magnetometer adjustment, written as
the specification words it: `corrected = raw * (((adj - 128) * 0.5 / 128) + 1)`. -/
def magAdjustSpecFormula (raw : Int) (adj : Nat) : ℚ :=
  (raw : ℚ) * ((((adj : ℚ) - 128) * (5 / 10) / 128) + 1)

end math

/-- Source (`test_mpu.cpp`): `static inline void adjust(int16_t *axis, uint8_t adj)`:
`*axis = *axis * (((((adj - 128)) * 0.5f) / 128) + 1);`.  The result stored
through the pointer is returned. -/
def test.adjust (axis : Int) (adj : Nat) : Option Int :=
  math.floatToInt16 ((axis : ℚ) * ((((((adj : Int) - 128 : Int) : ℚ) * (5 / 10)) / 128) + 1))

/-! ## Configuration state machine

`MPU.hpp`, `MPU.cpp` and `mpu/registers.hpp` are not part of the embedded
sources; only their caller `test_mpu.cpp` is.  The driver operations that the
test-suite calls are modelled from the specification, with the register map as
a parameter. -/

/-- Modelled from the spec: the error kinds of the driver, declared in the
missing `MPU.hpp`: success, `BusError` (transport read/write failure),
`InvalidArgument` (value outside the documented enumeration), `NotFound` and
`Timeout`. -/
inductive Error where
  | OK
  | BusError
  | InvalidArgument
  | NotFound
  | Timeout
  deriving DecidableEq

/-- Modelled from the spec: the bus capability, implemented outside the core.
The chip keeps volatile one-byte registers indexed by address; `fault` tells
whether the transport fails.  No driver operation changes `fault`: a transport
that serves the transactions of a setter also serves the read of the getter
that follows. -/
structure Bus where
  regs : Nat → Nat
  fault : Bool

/-- Modelled from the spec: the bus contract
`readRegister(addr, length) -> bytes | BusError`, a blocking read of `length`
contiguous registers. -/
def Bus.readRegister (b : Bus) (addr length : Nat) : Except Error (List Nat) :=
  if b.fault then .error .BusError
  else .ok ((List.range length).map fun i => b.regs (addr + i) % 256)

/-- Modelled from the spec: the bus contract
`writeRegister(addr, bytes) -> () | BusError`, a blocking write of contiguous
registers; each register keeps one byte. -/
def Bus.writeRegister (b : Bus) (addr : Nat) (bytes : List Nat) : Except Error Bus :=
  if b.fault then .error .BusError
  else .ok { b with
    regs := fun a =>
      if addr ≤ a ∧ a < addr + bytes.length then bytes.getD (a - addr) 0 % 256 else b.regs a }

/-- Modelled from the spec: the device handle of the missing class `MPU`: it
owns the bus capability, the device address and the last-error slot. -/
structure Device where
  bus : Bus
  addr : Nat
  err : Error

/-- Modelled from the spec: `lastError()` of the missing class `MPU` reads the
last-error slot of the handle. -/
def Device.lastError (d : Device) : Error := d.err

/-- Modelled from the spec: one entry of the register map (the missing
`mpu/registers.hpp` and `mpu/types.hpp`): register address, bit offset of the
least significant bit of the field, width in bits and the enumerated values
that are valid for the setting. -/
structure Field where
  reg : Nat
  offset : Nat
  width : Nat
  domain : List Nat

/-- A field lies inside its one-byte register and every enumerated value is
representable in the bits of the field. -/
def Field.WellFormed (f : Field) : Prop :=
  f.offset + f.width ≤ 8 ∧ ∀ v ∈ f.domain, v < 2 ^ f.width

instance (f : Field) : Decidable f.WellFormed := by
  unfold Field.WellFormed; exact inferInstance

/-- Modelled from the spec: shift/mask helper on plain integers, the mask of
the bits owned by a field. -/
def Field.mask (f : Field) : Nat := (2 ^ f.width - 1) <<< f.offset

/-- Modelled from the spec: shift/mask helper on plain integers, the register
byte with the bits of the field replaced by `v`. -/
def Field.insert (f : Field) (byte v : Nat) : Nat :=
  (byte &&& (0xFF ^^^ f.mask)) ||| ((v <<< f.offset) &&& f.mask)

/-- Modelled from the spec: shift/mask helper on plain integers, the value
held by the bits of the field. -/
def Field.extract (f : Field) (byte : Nat) : Nat := (byte &&& f.mask) >>> f.offset

/-- Modelled from the spec: the contract of a setter of the missing class
`MPU`.  A value outside the enumerated domain is rejected with
`InvalidArgument` before any bus access.  Otherwise the setter performs one
blind write when the field owns the whole register, and one read-modify-write
when it owns some bits only; when the read fails no write is attempted.  A
transport failure is surfaced as `BusError`.  The returned error is also
stored in the last-error slot. -/
def Device.setField (d : Device) (f : Field) (v : Nat) : Error × Device :=
  if v ∈ f.domain then
    if f.width = 8 then
      match d.bus.writeRegister f.reg [v] with
      | .error e => (e, { d with err := e })
      | .ok bus => (.OK, { d with bus := bus, err := .OK })
    else
      match d.bus.readRegister f.reg 1 with
      | .error e => (e, { d with err := e })
      | .ok bytes =>
        match d.bus.writeRegister f.reg [f.insert (bytes.headD 0) v] with
        | .error e => (e, { d with err := e })
        | .ok bus => (.OK, { d with bus := bus, err := .OK })
  else (.InvalidArgument, { d with err := .InvalidArgument })

/-- Modelled from the spec: the contract of a getter of the missing class
`MPU`: exactly one read, decoded with the bit layout of the setter.  The
outcome of the read is stored in the last-error slot. -/
def Device.getField (d : Device) (f : Field) : Nat × Device :=
  match d.bus.readRegister f.reg 1 with
  | .error e => (0, { d with err := e })
  | .ok bytes => (f.extract (bytes.headD 0), { d with err := .OK })

/-- Modelled from the spec: the part of the register map (missing
`mpu/registers.hpp`) used by the settings of the basic test: sleep, clock
source, digital low-pass filter, gyroscope and accelerometer full scale. -/
structure RegisterMap where
  sleep : Field
  clockSource : Field
  dlpf : Field
  gyroFullScale : Field
  accelFullScale : Field

/-- Every entry of the register map is well formed. -/
def RegisterMap.WellFormed (m : RegisterMap) : Prop :=
  m.sleep.WellFormed ∧ m.clockSource.WellFormed ∧ m.dlpf.WellFormed ∧
    m.gyroFullScale.WellFormed ∧ m.accelFullScale.WellFormed

instance (m : RegisterMap) : Decidable m.WellFormed := by
  unfold RegisterMap.WellFormed; exact inferInstance

/-- Modelled from the spec: `MPU::setSleep(bool)` of the missing `MPU.cpp`. -/
def Device.setSleep (d : Device) (m : RegisterMap) (enable : Bool) : Error × Device :=
  d.setField m.sleep (if enable then 1 else 0)

/-- Modelled from the spec: `MPU::getSleep()` of the missing `MPU.cpp`. -/
def Device.getSleep (d : Device) (m : RegisterMap) : Bool × Device :=
  ((d.getField m.sleep).1 != 0, (d.getField m.sleep).2)

/-- Modelled from the spec: `MPU::setClockSource(clock_src_t)` of the missing `MPU.cpp`. -/
def Device.setClockSource (d : Device) (m : RegisterMap) (clockSrc : Nat) : Error × Device :=
  d.setField m.clockSource clockSrc

/-- Modelled from the spec: `MPU::getClockSource()` of the missing `MPU.cpp`. -/
def Device.getClockSource (d : Device) (m : RegisterMap) : Nat × Device :=
  d.getField m.clockSource

/-- Modelled from the spec: `MPU::setDigitalLowPassFilter(dlpf_t)` of the missing `MPU.cpp`. -/
def Device.setDigitalLowPassFilter (d : Device) (m : RegisterMap) (dlpf : Nat) : Error × Device :=
  d.setField m.dlpf dlpf

/-- Modelled from the spec: `MPU::getDigitalLowPassFilter()` of the missing `MPU.cpp`. -/
def Device.getDigitalLowPassFilter (d : Device) (m : RegisterMap) : Nat × Device :=
  d.getField m.dlpf

/-- Modelled from the spec: `MPU::setGyroFullScale(gyro_fs_t)` of the missing `MPU.cpp`. -/
def Device.setGyroFullScale (d : Device) (m : RegisterMap) (fs : gyro_fs_t) : Error × Device :=
  d.setField m.gyroFullScale fs.val

/-- Modelled from the spec: `MPU::getGyroFullScale()` of the missing `MPU.cpp`. -/
def Device.getGyroFullScale (d : Device) (m : RegisterMap) : Nat × Device :=
  d.getField m.gyroFullScale

/-- Modelled from the spec: `MPU::setAccelFullScale(accel_fs_t)` of the missing `MPU.cpp`. -/
def Device.setAccelFullScale (d : Device) (m : RegisterMap) (fs : accel_fs_t) : Error × Device :=
  d.setField m.accelFullScale fs.val

/-- Modelled from the spec: `MPU::getAccelFullScale()` of the missing `MPU.cpp`. -/
def Device.getAccelFullScale (d : Device) (m : RegisterMap) : Nat × Device :=
  d.getField m.accelFullScale

/-- A register map to instantiate the parameter with: sleep is bit 6 and the
clock source bits 2..0 of register 0x6B, the low-pass filter bits 2..0 of
register 0x1A, the gyroscope and accelerometer full scale bits 4..3 of
registers 0x1B and 0x1C. -/
def sampleRegisterMap : RegisterMap where
  sleep := { reg := 0x6B, offset := 6, width := 1, domain := [0, 1] }
  clockSource := { reg := 0x6B, offset := 0, width := 3, domain := [0, 1, 2, 3, 4, 5, 7] }
  dlpf := { reg := 0x1A, offset := 0, width := 3, domain := [0, 1, 2, 3, 4, 5, 6, 7] }
  gyroFullScale := { reg := 0x1B, offset := 3, width := 2, domain := [0, 1, 2, 3] }
  accelFullScale := { reg := 0x1C, offset := 3, width := 2, domain := [0, 1, 2, 3] }

/-- A device handle to instantiate the theorems with: a working bus, every
register holding 0x40, no error recorded. -/
def sampleDevice : Device where
  bus := { regs := fun _ => 0x40, fault := false }
  addr := 0x68
  err := .OK

/-! ## Standby mode

The standby setting of the missing `MPU.cpp`, with the enumerators of the
missing `mpu/types.hpp` and the bit names of the missing `mpu/registers.hpp`
that the standby test uses. -/

/-- Modelled from the spec: the enumerators of `stby_en_t` (missing
`mpu/types.hpp`).  The standby mask is one byte: the accelerometer and
gyroscope axis bits are its low six bits, the temperature and low-power PLL
bits the two bits above. -/
def STBY_EN_GYRO_Z : Nat := 1 <<< 0

/-- Modelled from the spec: standby bit of the gyroscope Y axis. -/
def STBY_EN_GYRO_Y : Nat := 1 <<< 1

/-- Modelled from the spec: standby bit of the gyroscope X axis. -/
def STBY_EN_GYRO_X : Nat := 1 <<< 2

/-- Modelled from the spec: standby bit of the accelerometer Z axis. -/
def STBY_EN_ACCEL_Z : Nat := 1 <<< 3

/-- Modelled from the spec: standby bit of the accelerometer Y axis. -/
def STBY_EN_ACCEL_Y : Nat := 1 <<< 4

/-- Modelled from the spec: standby bit of the accelerometer X axis. -/
def STBY_EN_ACCEL_X : Nat := 1 <<< 5

/-- Modelled from the spec: standby bit of the temperature sensor. -/
def STBY_EN_TEMP : Nat := 1 <<< 6

/-- Modelled from the spec: low-power mode of the gyroscope with the PLL kept on. -/
def STBY_EN_LOWPWR_GYRO_PLL_ON : Nat := 1 <<< 7

/-- Modelled from the spec: the three accelerometer axes. -/
def STBY_EN_ACCEL : Nat := STBY_EN_ACCEL_X ||| STBY_EN_ACCEL_Y ||| STBY_EN_ACCEL_Z

/-- Modelled from the spec: the three gyroscope axes. -/
def STBY_EN_GYRO : Nat := STBY_EN_GYRO_X ||| STBY_EN_GYRO_Y ||| STBY_EN_GYRO_Z

/-- Modelled from the spec: position of the temperature-disable bit in
`PWR_MGMT1` (missing `mpu/registers.hpp`), 3 below the mask bit `STBY_EN_TEMP`. -/
def regs.PWR1_TEMP_DIS_BIT : Nat := 3

/-- Modelled from the spec: position of the gyroscope-standby bit in
`PWR_MGMT1` (missing `mpu/registers.hpp`), 3 below the mask bit
`STBY_EN_LOWPWR_GYRO_PLL_ON`. -/
def regs.PWR1_GYRO_STANDBY_BIT : Nat := 4

/-- Modelled from the spec: accelerometer standby bits of `PWR_MGMT2`, at the
positions of the accelerometer axis bits of the mask. -/
def regs.PWR2_STBY_XYZA_BITS : Nat := 1 <<< 5 ||| 1 <<< 4 ||| 1 <<< 3

/-- Modelled from the spec: gyroscope standby bits of `PWR_MGMT2`, at the
positions of the gyroscope axis bits of the mask. -/
def regs.PWR2_STBY_XYZG_BITS : Nat := 1 <<< 2 ||| 1 <<< 1 ||| 1 <<< 0

/-- Modelled from the spec: addresses of the two power-management registers
(missing `mpu/registers.hpp`) that store the standby mask. -/
structure PowerRegisters where
  PWR_MGMT1 : Nat
  PWR_MGMT2 : Nat

/-- Modelled from the spec: the temperature-disable and gyroscope-standby bits
of `PWR_MGMT1`, as one field of the register map. -/
def PowerRegisters.standbyPwr1 (r : PowerRegisters) : Field where
  reg := r.PWR_MGMT1
  offset := regs.PWR1_TEMP_DIS_BIT
  width := 2
  domain := List.range 4

/-- Modelled from the spec: the six axis standby bits of `PWR_MGMT2`, as one
field of the register map. -/
def PowerRegisters.standbyPwr2 (r : PowerRegisters) : Field where
  reg := r.PWR_MGMT2
  offset := 0
  width := 6
  domain := List.range 64

/-- Modelled from the spec: `MPU::setStandbyMode(stby_en_t)` of the missing
`MPU.cpp`.  The mask is split across the two registers: the temperature and
PLL bits, shifted right by 3, go to `PWR_MGMT1`; the axis bits go unshifted to
`PWR_MGMT2`.  Each register is updated by a read-modify-write; after a failure
nothing more is written. -/
def Device.setStandbyMode (d : Device) (r : PowerRegisters) (mask : Nat) : Error × Device :=
  if mask < 256 then
    if (d.setField r.standbyPwr1
        (((mask &&& (STBY_EN_TEMP ||| STBY_EN_LOWPWR_GYRO_PLL_ON)) >>> 3)
          >>> r.standbyPwr1.offset)).1 = .OK then
      (d.setField r.standbyPwr1
        (((mask &&& (STBY_EN_TEMP ||| STBY_EN_LOWPWR_GYRO_PLL_ON)) >>> 3)
          >>> r.standbyPwr1.offset)).2.setField r.standbyPwr2
        (mask &&& (STBY_EN_ACCEL ||| STBY_EN_GYRO))
    else
      d.setField r.standbyPwr1
        (((mask &&& (STBY_EN_TEMP ||| STBY_EN_LOWPWR_GYRO_PLL_ON)) >>> 3)
          >>> r.standbyPwr1.offset)
  else (.InvalidArgument, { d with err := .InvalidArgument })

/-- Modelled from the spec: `MPU::getStandbyMode()` of the missing `MPU.cpp`:
both registers are read and the mask is put together again, the bits of
`PWR_MGMT1` shifted left by 3. -/
def Device.getStandbyMode (d : Device) (r : PowerRegisters) : Nat × Device :=
  if (d.getField r.standbyPwr1).2.err = .OK then
    ((((d.getField r.standbyPwr1).1 <<< r.standbyPwr1.offset) <<< 3) |||
        ((d.getField r.standbyPwr1).2.getField r.standbyPwr2).1,
      ((d.getField r.standbyPwr1).2.getField r.standbyPwr2).2)
  else (0, (d.getField r.standbyPwr1).2)

/-- Modelled from the spec: `MPU::readByte(reg, data)` of the missing
`MPU.cpp`: one read of one register; the byte stored through `data` is the
second component. -/
def Device.readByte (d : Device) (reg : Nat) : Error × Nat :=
  match d.bus.readRegister reg 1 with
  | .error e => (e, 0)
  | .ok bytes => (.OK, bytes.headD 0)

/-- Power-management register addresses to instantiate the parameter with. -/
def samplePowerRegisters : PowerRegisters where
  PWR_MGMT1 := 0x6B
  PWR_MGMT2 := 0x6C

/-! ## FIFO

The FIFO manager of the missing `MPU.cpp`, with the enumerators of the missing
`mpu/types.hpp` that the FIFO test uses. -/

/-- Modelled from the spec: the enumerators of `fifo_config_t` (missing
`mpu/types.hpp`), a bitset of the data sources that feed the FIFO: the
accelerometer, each gyroscope axis, the temperature and four auxiliary slave
channels.  Nine sources need nine bits. -/
def FIFO_CFG_SLAVE0 : Nat := 1 <<< 0

/-- Modelled from the spec: FIFO source, auxiliary slave channel 1. -/
def FIFO_CFG_SLAVE1 : Nat := 1 <<< 1

/-- Modelled from the spec: FIFO source, auxiliary slave channel 2. -/
def FIFO_CFG_SLAVE2 : Nat := 1 <<< 2

/-- Modelled from the spec: FIFO source, accelerometer (all three axes). -/
def FIFO_CFG_ACCEL : Nat := 1 <<< 3

/-- Modelled from the spec: FIFO source, gyroscope Z axis. -/
def FIFO_CFG_GYRO_Z : Nat := 1 <<< 4

/-- Modelled from the spec: FIFO source, gyroscope Y axis. -/
def FIFO_CFG_GYRO_Y : Nat := 1 <<< 5

/-- Modelled from the spec: FIFO source, gyroscope X axis. -/
def FIFO_CFG_GYRO_X : Nat := 1 <<< 6

/-- Modelled from the spec: FIFO source, temperature. -/
def FIFO_CFG_TEMPERATURE : Nat := 1 <<< 7

/-- Modelled from the spec: FIFO source, auxiliary slave channel 3. -/
def FIFO_CFG_SLAVE3 : Nat := 1 <<< 8

/-- Modelled from the spec: FIFO source, the three gyroscope axes. -/
def FIFO_CFG_GYRO : Nat := FIFO_CFG_GYRO_X ||| FIFO_CFG_GYRO_Y ||| FIFO_CFG_GYRO_Z

/-- Modelled from the spec: the packet size computed by the FIFO manager of the
missing `MPU.cpp`, the sum of the byte widths of the enabled sources: the
accelerometer contributes a fixed block of 6 bytes, each gyroscope axis and
the temperature 2 bytes, an auxiliary slave channel the read length configured
for its slot. -/
def fifoPacketSize (config : Nat) (slaveLength : Nat → Nat) : Nat :=
  (if config &&& FIFO_CFG_ACCEL ≠ 0 then 6 else 0) +
  (if config &&& FIFO_CFG_GYRO_X ≠ 0 then 2 else 0) +
  (if config &&& FIFO_CFG_GYRO_Y ≠ 0 then 2 else 0) +
  (if config &&& FIFO_CFG_GYRO_Z ≠ 0 then 2 else 0) +
  (if config &&& FIFO_CFG_TEMPERATURE ≠ 0 then 2 else 0) +
  (if config &&& FIFO_CFG_SLAVE0 ≠ 0 then slaveLength 0 else 0) +
  (if config &&& FIFO_CFG_SLAVE1 ≠ 0 then slaveLength 1 else 0) +
  (if config &&& FIFO_CFG_SLAVE2 ≠ 0 then slaveLength 2 else 0) +
  (if config &&& FIFO_CFG_SLAVE3 ≠ 0 then slaveLength 3 else 0)

/-- Modelled from the spec: the registers of the FIFO manager (missing
`mpu/registers.hpp`): the FIFO enable register, which holds eight source
bits; the register and bit that hold the ninth source bit; the register and
bit of the FIFO reset; the 16-bit byte count, high byte at `FIFO_COUNT_H` and
low byte in the next register. -/
structure FifoRegisters where
  FIFO_EN : Nat
  I2C_MST_CTRL : Nat
  I2CMST_CTRL_SLV_3_FIFO_EN_BIT : Nat
  USER_CTRL : Nat
  USERCTRL_FIFO_RESET_BIT : Nat
  FIFO_COUNT_H : Nat

/-- The bits lie inside their registers and the registers are distinct. -/
def FifoRegisters.WellFormed (r : FifoRegisters) : Prop :=
  r.I2CMST_CTRL_SLV_3_FIFO_EN_BIT < 8 ∧ r.USERCTRL_FIFO_RESET_BIT < 8 ∧
  r.FIFO_EN ≠ r.I2C_MST_CTRL ∧ r.USER_CTRL ≠ r.FIFO_EN ∧ r.USER_CTRL ≠ r.I2C_MST_CTRL ∧
  r.FIFO_COUNT_H ≠ r.FIFO_EN ∧ r.FIFO_COUNT_H + 1 ≠ r.FIFO_EN ∧
  r.FIFO_COUNT_H ≠ r.I2C_MST_CTRL ∧ r.FIFO_COUNT_H + 1 ≠ r.I2C_MST_CTRL ∧
  r.FIFO_COUNT_H ≠ r.USER_CTRL ∧ r.FIFO_COUNT_H + 1 ≠ r.USER_CTRL

instance (r : FifoRegisters) : Decidable r.WellFormed := by
  unfold FifoRegisters.WellFormed; exact inferInstance

/-- Modelled from the spec: the eight source bits of the FIFO enable register;
the field owns the whole register. -/
def FifoRegisters.fifoEnable (r : FifoRegisters) : Field where
  reg := r.FIFO_EN
  offset := 0
  width := 8
  domain := List.range 256

/-- Modelled from the spec: the enable bit of the ninth source. -/
def FifoRegisters.slave3Enable (r : FifoRegisters) : Field where
  reg := r.I2C_MST_CTRL
  offset := r.I2CMST_CTRL_SLV_3_FIFO_EN_BIT
  width := 1
  domain := [0, 1]

/-- Modelled from the spec: the FIFO reset bit. -/
def FifoRegisters.fifoReset (r : FifoRegisters) : Field where
  reg := r.USER_CTRL
  offset := r.USERCTRL_FIFO_RESET_BIT
  width := 1
  domain := [0, 1]

/-- Modelled from the spec: `MPU::setFIFOConfig(fifo_config_t)` of the missing
`MPU.cpp` writes the enable bit of each source: the low eight bits of the set
by one blind write of the FIFO enable register, the ninth by a
read-modify-write.  A value that is not a set of the nine sources is rejected
before any bus access. -/
def Device.setFIFOConfig (d : Device) (r : FifoRegisters) (config : Nat) : Error × Device :=
  if config < 512 then
    if (d.setField r.fifoEnable (config &&& 0xFF)).1 = .OK then
      (d.setField r.fifoEnable (config &&& 0xFF)).2.setField r.slave3Enable (config >>> 8)
    else d.setField r.fifoEnable (config &&& 0xFF)
  else (.InvalidArgument, { d with err := .InvalidArgument })

/-- Modelled from the spec: `MPU::getFIFOConfig()` of the missing `MPU.cpp`
reads the enable bits back and decodes them with the layout of the setter. -/
def Device.getFIFOConfig (d : Device) (r : FifoRegisters) : Nat × Device :=
  if (d.getField r.fifoEnable).2.err = .OK then
    ((d.getField r.fifoEnable).1 |||
        (((d.getField r.fifoEnable).2.getField r.slave3Enable).1 <<< 8),
      ((d.getField r.fifoEnable).2.getField r.slave3Enable).2)
  else (0, (d.getField r.fifoEnable).2)

/-- Modelled from the spec: the reaction of the chip to the reset pulse: the
buffer is emptied, so that the byte count reads zero, and the reset bit reads
zero again. -/
def Bus.fifoResetPulse (b : Bus) (r : FifoRegisters) : Bus :=
  { b with
    regs := fun a =>
      if a = r.FIFO_COUNT_H ∨ a = r.FIFO_COUNT_H + 1 then 0
      else if a = r.USER_CTRL then r.fifoReset.insert (b.regs a % 256) 0 % 256
      else b.regs a }

/-- Modelled from the spec: `MPU::resetFIFO()` of the missing `MPU.cpp` pulses
the reset bit by one read-modify-write; the chip empties the buffer. -/
def Device.resetFIFO (d : Device) (r : FifoRegisters) : Error × Device :=
  if (d.setField r.fifoReset 1).1 = .OK then
    (.OK, { (d.setField r.fifoReset 1).2 with
      bus := (d.setField r.fifoReset 1).2.bus.fifoResetPulse r })
  else d.setField r.fifoReset 1

/-- Modelled from the spec: `MPU::getFIFOCount()` of the missing `MPU.cpp`
reads the 16-bit count register, high byte first; the count is in bytes. -/
def Device.getFIFOCount (d : Device) (r : FifoRegisters) : Nat × Device :=
  match d.bus.readRegister r.FIFO_COUNT_H 2 with
  | .error e => (0, { d with err := e })
  | .ok bytes => ((bytes.getD 0 0 <<< 8) ||| bytes.getD 1 0, { d with err := .OK })

/-- FIFO registers to instantiate the parameter with. -/
def sampleFifoRegisters : FifoRegisters where
  FIFO_EN := 0x23
  I2C_MST_CTRL := 0x24
  I2CMST_CTRL_SLV_3_FIFO_EN_BIT := 5
  USER_CTRL := 0x6A
  USERCTRL_FIFO_RESET_BIT := 2
  FIFO_COUNT_H := 0x72

end emd.mpu

/-! # Theorems -/

namespace emd.mpu.math

/-! ## Full-scale ranges, sensitivities, resolutions -/

theorem accelFSRvalue_eq (fs : accel_fs_t) : accelFSRvalue fs = 2 * 2 ^ fs.val := by
  fin_cases fs <;> decide

theorem gyroFSRvalue_eq (fs : gyro_fs_t) : gyroFSRvalue fs = 250 * 2 ^ fs.val := by
  fin_cases fs <;> decide

theorem accelSensitivity_eq (fs : accel_fs_t) : accelSensitivity fs = 16384 / 2 ^ fs.val := by
  fin_cases fs <;> decide

/-- C1: for every accelerometer full-scale selector `fs`, `accelResolution fs`
is `accelFSRvalue fs / 32767` in exact arithmetic (the full-scale value being
`2 * 2^fs`, not truncated by its `uint8_t` type), and `accelResolution` is
monotonically non-decreasing in `fs`. -/
theorem accelResolution_eq_and_monotone :
    (∀ fs : accel_fs_t,
        accelResolution fs = (accelFSRvalue fs : ℚ) / 32767 ∧ accelFSRvalue fs = 2 * 2 ^ fs.val) ∧
    (∀ fs1 fs2 : accel_fs_t, fs1 ≤ fs2 → accelResolution fs1 ≤ accelResolution fs2) := by
  refine ⟨fun fs => ⟨by simp [accelResolution, INT16_MAX], accelFSRvalue_eq fs⟩, ?_⟩
  intro fs1 fs2 h
  have hle : accelFSRvalue fs1 ≤ accelFSRvalue fs2 := by
    rw [accelFSRvalue_eq, accelFSRvalue_eq]
    exact Nat.mul_le_mul_left 2 (Nat.pow_le_pow_right (by decide) h)
  have hq : ((accelFSRvalue fs1 : Nat) : ℚ) ≤ ((accelFSRvalue fs2 : Nat) : ℚ) := by
    exact_mod_cast hle
  unfold accelResolution
  exact div_le_div_of_nonneg_right hq (by norm_num [INT16_MAX])

theorem accelResolution_eq_and_monotone_witness :
    (0 : accel_fs_t) ≤ 3 ∧ accelResolution 0 ≤ accelResolution 3 :=
  ⟨by decide, accelResolution_eq_and_monotone.2 0 3 (by decide)⟩

/-- C5: for every accelerometer full-scale selector `fs`, `accelSensitivity fs`
is `16384 >> fs = 16384 / 2^fs` (16384, 8192, 4096, 2048 LSB/g), and one range
step halves it exactly: `accelSensitivity (fs + 1) * 2 = accelSensitivity fs`
for `fs` in 0, 1, 2. -/
theorem accelSensitivity_shift_and_halving :
    (∀ fs : accel_fs_t,
        accelSensitivity fs = 16384 >>> fs.val ∧ accelSensitivity fs = 16384 / 2 ^ fs.val) ∧
    (accelSensitivity 0 = 16384 ∧ accelSensitivity 1 = 8192 ∧
      accelSensitivity 2 = 4096 ∧ accelSensitivity 3 = 2048) ∧
    (∀ fs : accel_fs_t, fs.val < 3 → accelSensitivity (fs + 1) * 2 = accelSensitivity fs) := by
  refine ⟨fun fs => ?_, by decide, fun fs => ?_⟩
  · fin_cases fs <;> decide
  · fin_cases fs <;> decide

theorem accelSensitivity_shift_and_halving_witness :
    (2 : accel_fs_t).val < 3 ∧ accelSensitivity (2 + 1) * 2 = accelSensitivity 2 :=
  ⟨by decide, accelSensitivity_shift_and_halving.2.2 2 (by decide)⟩

/-- C6: for every gyroscope full-scale selector `fs`, `gyroSensitivity fs` is
the exact rational `131 / 2^fs` (131, 65.5, 32.75, 16.375 LSB per deg/s); the
division is not an integer division. -/
theorem gyroSensitivity_eq :
    (∀ fs : gyro_fs_t, gyroSensitivity fs = (131 : ℚ) / 2 ^ fs.val) ∧
    gyroSensitivity 0 = 131 ∧ gyroSensitivity 1 = 655 / 10 ∧
    gyroSensitivity 2 = 3275 / 100 ∧ gyroSensitivity 3 = 16375 / 1000 := by
  refine ⟨fun fs => ?_, ?_, ?_, ?_, ?_⟩
  · fin_cases fs <;> norm_num [gyroSensitivity, Nat.shiftLeft_eq]
  · norm_num [gyroSensitivity, Nat.shiftLeft_eq]
  · norm_num [gyroSensitivity, Nat.shiftLeft_eq]
  · norm_num [gyroSensitivity, Nat.shiftLeft_eq]
  · have h3 : ((3 : Fin 4) : Nat) = 3 := rfl
    simp only [gyroSensitivity, Nat.shiftLeft_eq, h3]
    norm_num

/-- C7: for every gyroscope full-scale selector `fs`, the full-scale value
`gyroFSRvalue fs` is `250 * 2^fs` (250, 500, 1000, 2000 deg/s, not truncated by
its `uint16_t` type) and `gyroResolution fs` is that value divided by 32767:
`gyroResolution fs * 32767 = 250 * 2^fs`, which fails for the divisor 32768. -/
theorem gyroResolution_eq :
    (gyroFSRvalue 0 = 250 ∧ gyroFSRvalue 1 = 500 ∧ gyroFSRvalue 2 = 1000 ∧ gyroFSRvalue 3 = 2000) ∧
    (∀ fs : gyro_fs_t,
        gyroFSRvalue fs = 250 * 2 ^ fs.val ∧
        gyroResolution fs = (gyroFSRvalue fs : ℚ) / 32767 ∧
        gyroResolution fs * 32767 = 250 * 2 ^ fs.val ∧
        gyroResolution fs * 32768 ≠ 250 * 2 ^ fs.val) := by
  refine ⟨by decide, fun fs => ?_⟩
  have hv := gyroFSRvalue_eq fs
  have hp : (0 : ℚ) < 250 * 2 ^ fs.val := by positivity
  have hr : gyroResolution fs = (250 * 2 ^ fs.val : ℚ) / 32767 := by
    simp only [gyroResolution, INT16_MAX, hv]
    push_cast
    rfl
  refine ⟨hv, by simp [gyroResolution, INT16_MAX], ?_, ?_⟩
  · rw [hr]
    exact div_mul_cancel₀ _ (by norm_num)
  · rw [hr]
    intro h
    have h2 : (250 * 2 ^ fs.val : ℚ) / 32767 * 32767 = 250 * 2 ^ fs.val :=
      div_mul_cancel₀ _ (by norm_num)
    nlinarith

/-- C9 (as stated, refuted): for the 2 g range the product of the accelerometer
resolution and the accelerometer sensitivity is not 1. -/
theorem accelResolution_mul_accelSensitivity_ne_one :
    accelResolution 0 * (accelSensitivity 0 : ℚ) ≠ 1 := by
  norm_num [accelResolution, accelSensitivity, accelFSRvalue, INT16_MAX]

/-- C9 (amended): for every accelerometer full-scale selector `fs` the product
`accelResolution fs * accelSensitivity fs` is `32768 / 32767`: the resolution
divides the full-scale value by 32767, the sensitivity is 32768 divided by the
full-scale value. -/
theorem accelResolution_mul_accelSensitivity :
    ∀ fs : accel_fs_t, accelResolution fs * (accelSensitivity fs : ℚ) = 32768 / 32767 := by
  intro fs
  fin_cases fs <;>
    norm_num [accelResolution, accelSensitivity, accelFSRvalue, INT16_MAX, Nat.shiftLeft_eq,
      Nat.shiftRight_eq_div_pow]

/-- C13: because the resolutions divide by 32767, the positive full-scale raw
count maps exactly onto the nominal full-scale value: in exact arithmetic
`accelGravity 32767 fs = 2 * 2^fs` and `gyroDegPerSec 32767 fs = 250 * 2^fs`
for every `fs`, whereas the most negative raw count -32768 maps to the
full-scale value times `-32768/32767`, of strictly greater magnitude. -/
theorem full_scale_count_maps_to_full_scale :
    (∀ fs : accel_fs_t,
      accelGravity 32767 fs = 2 * 2 ^ fs.val ∧
      accelGravity (-32768) fs = -(2 * 2 ^ fs.val) * (32768 / 32767) ∧
      |accelGravity (-32768) fs| > 2 * 2 ^ fs.val) ∧
    (∀ fs : gyro_fs_t,
      gyroDegPerSec 32767 fs = 250 * 2 ^ fs.val ∧
      gyroDegPerSec (-32768) fs = -(250 * 2 ^ fs.val) * (32768 / 32767) ∧
      |gyroDegPerSec (-32768) fs| > 250 * 2 ^ fs.val) := by
  constructor
  · intro fs
    have hr : accelResolution fs = (2 * 2 ^ fs.val : ℚ) / 32767 := by
      simp only [accelResolution, INT16_MAX, accelFSRvalue_eq]
      push_cast
      rfl
    have hp : (0 : ℚ) < 2 * 2 ^ fs.val := by positivity
    have h1 : accelGravity (-32768) fs = -(2 * 2 ^ fs.val) * (32768 / 32767) := by
      unfold accelGravity
      rw [hr]
      push_cast
      ring
    refine ⟨?_, h1, ?_⟩
    · unfold accelGravity
      rw [hr]
      push_cast
      field_simp
    · rw [h1, gt_iff_lt, lt_abs]
      right
      linarith
  · intro fs
    have hr : gyroResolution fs = (250 * 2 ^ fs.val : ℚ) / 32767 := by
      simp only [gyroResolution, INT16_MAX, gyroFSRvalue_eq]
      push_cast
      rfl
    have hp : (0 : ℚ) < 250 * 2 ^ fs.val := by positivity
    have h1 : gyroDegPerSec (-32768) fs = -(250 * 2 ^ fs.val) * (32768 / 32767) := by
      unfold gyroDegPerSec
      rw [hr]
      push_cast
      ring
    refine ⟨?_, h1, ?_⟩
    · unfold gyroDegPerSec
      rw [hr]
      push_cast
      field_simp
    · rw [h1, gt_iff_lt, lt_abs]
      right
      linarith

/-! ## Temperature -/

theorem kTempResolution_mul_kTempSensitivity_ne_one (chip : ChipModel) :
    kTempResolution * kTempSensitivity chip ≠ 1 := by
  cases chip <;> norm_num [kTempResolution, kTempSensitivity, INT16_MAX]

theorem tempCelsius_eq_documented_iff (chip : ChipModel) (temp : Int) :
    tempCelsius chip temp = tempCelsiusDocumented chip temp ↔ temp = kRoomTempOffset chip := by
  have hs : kTempSensitivity chip ≠ 0 := by
    cases chip <;> norm_num [kTempSensitivity]
  have hne := kTempResolution_mul_kTempSensitivity_ne_one chip
  unfold tempCelsius tempCelsiusDocumented
  constructor
  · intro h
    have h1 : ((temp - kRoomTempOffset chip : Int) : ℚ) * kTempResolution
        = ((temp - kRoomTempOffset chip : Int) : ℚ) / kTempSensitivity chip := by linarith
    have h2 : ((temp - kRoomTempOffset chip : Int) : ℚ)
        * (kTempResolution * kTempSensitivity chip - 1) = 0 := by
      rw [eq_div_iff hs] at h1
      linear_combination h1
    rcases mul_eq_zero.mp h2 with h3 | h3
    · have h4 : temp - kRoomTempOffset chip = 0 := by exact_mod_cast h3
      omega
    · exact absurd (by linarith) hne
  · intro h
    simp [h]

/-- C8 (evaluation of the code at the failing inputs): `tempCelsius` multiplies
by `kTempResolution = 98.67 / 32767` and never divides by `kTempSensitivity`.
For MPU6050 and the raw word -181 (340 LSB above the room-temperature offset)
the documented formula gives 36 and the code gives 5901964/163835, more than
0.02 above; for MPU6500 and the raw word 1 the two values differ as well. -/
theorem tempCelsius_differs_from_documented :
    tempCelsiusDocumented .MPU6050 (-181) = 36 ∧
    tempCelsius .MPU6050 (-181) = 5901964 / 163835 ∧
    tempCelsius .MPU6050 (-181) - tempCelsiusDocumented .MPU6050 (-181) > 2 / 100 ∧
    tempCelsiusDocumented .MPU6500 1 = 21 + 100 / 33387 ∧
    tempCelsius .MPU6500 1 = 21 + 9867 / 3276700 ∧
    tempCelsius .MPU6500 1 ≠ tempCelsiusDocumented .MPU6500 1 := by
  refine ⟨?_, ?_, ?_, ?_, ?_, ?_⟩ <;>
    norm_num [tempCelsius, tempCelsiusDocumented, kTempResolution, kTempSensitivity,
      kCelsiusOffset, kRoomTempOffset, INT16_MAX]

/-- C14: the two temperature scales agree: for every raw temperature word and
every chip, in exact arithmetic,
`tempFahrenheit temp = tempCelsius temp * 1.8 + 32`. -/
theorem tempFahrenheit_eq_tempCelsius (chip : ChipModel) (temp : Int) :
    tempFahrenheit chip temp = tempCelsius chip temp * (18 / 10) + 32 ∧
    kFahrenheitOffset chip = kCelsiusOffset chip * (18 / 10) + 32 := by
  refine ⟨?_, rfl⟩
  unfold tempFahrenheit tempCelsius kFahrenheitOffset
  ring

theorem kTempResolution_pos : 0 < kTempResolution := by
  norm_num [kTempResolution, INT16_MAX]

/-- C16: room-temperature anchor: for every chip the raw word equal to the
room-temperature offset converts to the Celsius offset (`tempCelsius 0 = 21`
for MPU6500/MPU9250, `tempCelsius (-521) = 35` for MPU6000/MPU6050/MPU9150),
and `tempCelsius` is strictly increasing in the raw word. -/
theorem tempCelsius_anchor_and_strictMono :
    (∀ chip : ChipModel, tempCelsius chip (kRoomTempOffset chip) = kCelsiusOffset chip) ∧
    (tempCelsius .MPU6500 0 = 21 ∧ tempCelsius .MPU9250 0 = 21) ∧
    (tempCelsius .MPU6000 (-521) = 35 ∧ tempCelsius .MPU6050 (-521) = 35 ∧
      tempCelsius .MPU9150 (-521) = 35) ∧
    (∀ chip : ChipModel, ∀ t1 t2 : Int, t1 < t2 → tempCelsius chip t1 < tempCelsius chip t2) := by
  have hanchor : ∀ chip : ChipModel,
      tempCelsius chip (kRoomTempOffset chip) = kCelsiusOffset chip := by
    intro chip
    simp [tempCelsius]
  refine ⟨hanchor, ⟨hanchor .MPU6500, hanchor .MPU9250⟩,
    ⟨hanchor .MPU6000, hanchor .MPU6050, hanchor .MPU9150⟩, ?_⟩
  intro chip t1 t2 h
  unfold tempCelsius
  have hq : ((t1 - kRoomTempOffset chip : Int) : ℚ) < ((t2 - kRoomTempOffset chip : Int) : ℚ) := by
    exact_mod_cast (by omega : t1 - kRoomTempOffset chip < t2 - kRoomTempOffset chip)
  have := mul_lt_mul_of_pos_right hq kTempResolution_pos
  linarith

theorem tempCelsius_anchor_and_strictMono_witness :
    ((-521 : Int) < 0) ∧ tempCelsius .MPU6050 (-521) < tempCelsius .MPU6050 0 :=
  ⟨by decide, tempCelsius_anchor_and_strictMono.2.2.2 .MPU6050 (-521) 0 (by decide)⟩

/-! ## Magnetometer sensitivity adjustment -/

theorem truncToZero_intCast_div_natCast (a : Int) (n : Nat) :
    truncToZero ((a : ℚ) / (n : ℚ)) = Int.tdiv a (n : Int) := by
  rcases Nat.eq_zero_or_pos n with hn | hn
  · subst hn
    simp [truncToZero]
  have hnq : (0 : ℚ) < (n : ℚ) := by exact_mod_cast hn
  by_cases ha : 0 ≤ a
  · have hx : (0 : ℚ) ≤ (a : ℚ) / (n : ℚ) := div_nonneg (by exact_mod_cast ha) hnq.le
    rw [truncToZero, if_pos hx, Rat.floor_intCast_div_natCast,
      Int.tdiv_eq_ediv ha (Int.ofNat_nonneg n)]
  · have ha2 : a < 0 := lt_of_not_le ha
    have hx : ¬ (0 : ℚ) ≤ (a : ℚ) / (n : ℚ) := by
      have : (a : ℚ) / (n : ℚ) < 0 := div_neg_of_neg_of_pos (by exact_mod_cast ha2) hnq
      exact not_le.mpr this
    have hneg : (a : ℚ) / (n : ℚ) = -(((-a : Int) : ℚ) / (n : ℚ)) := by
      push_cast
      ring
    rw [truncToZero, if_neg hx, hneg, Int.ceil_neg, Rat.floor_intCast_div_natCast]
    have h1 : (-a).tdiv (n : Int) = (-a) / (n : Int) :=
      Int.tdiv_eq_ediv (by omega) (Int.ofNat_nonneg n)
    rw [← h1, Int.neg_tdiv, neg_neg]

theorem magAdjust_scale_eq (adjValue : Nat) :
    magAdjust.scale adjValue = (((adjValue : Int) + 128 : Int) : ℚ) / ((256 : Nat) : ℚ) := by
  unfold magAdjust.scale magAdjust.factor
  push_cast
  ring

theorem magAdjust_product_eq (axis : Int) (adjValue : Nat) :
    (axis : ℚ) * magAdjust.scale adjValue
      = ((axis * ((adjValue : Int) + 128) : Int) : ℚ) / ((256 : Nat) : ℚ) := by
  rw [magAdjust_scale_eq]
  push_cast
  ring

theorem magAdjustSpecFormula_eq (raw : Int) (adj : Nat) :
    magAdjustSpecFormula raw adj = (raw : ℚ) * magAdjust.scale adj := by
  unfold magAdjustSpecFormula magAdjust.scale magAdjust.factor
  push_cast
  ring

theorem test_adjust_eq_magAdjust (axis : Int) (adj : Nat) :
    test.adjust axis adj = magAdjust axis adj := by
  unfold test.adjust magAdjust magAdjust.scale magAdjust.factor
  congr 1
  ring

theorem magAdjust_eq_tdiv (axis : Int) (adjValue : Nat)
    (hfit : IsInt16 (Int.tdiv (axis * ((adjValue : Int) + 128)) 256)) :
    magAdjust axis adjValue = some (Int.tdiv (axis * ((adjValue : Int) + 128)) 256) := by
  have ht : truncToZero ((axis : ℚ) * magAdjust.scale adjValue)
      = Int.tdiv (axis * ((adjValue : Int) + 128)) 256 := by
    rw [magAdjust_product_eq, truncToZero_intCast_div_natCast]
    rfl
  unfold magAdjust floatToInt16
  rw [ht]
  exact if_pos hfit

/-- The embedding of `magAdjust` in exact arithmetic is the machine
computation: the constant `factor`, the converted operands and the result of
each of the three floating operations are exactly representable binary32
values, so no operation rounds. -/
theorem magAdjust_no_rounding (axis : Int) (adjValue : Nat)
    (haxis : IsInt16 axis) (hadj : IsUInt8 adjValue) :
    F32Exact magAdjust.factor ∧
    F32Exact (((adjValue : Int) - 128 : Int) : ℚ) ∧
    F32Exact ((((adjValue : Int) - 128 : Int) : ℚ) * magAdjust.factor) ∧
    F32Exact (magAdjust.scale adjValue) ∧
    F32Exact (axis : ℚ) ∧
    F32Exact ((axis : ℚ) * magAdjust.scale adjValue) := by
  obtain ⟨hlo, hhi⟩ := haxis
  unfold INT16_MIN at hlo
  unfold INT16_MAX at hhi
  unfold IsUInt8 at hadj
  have h8 : ((2 : ℚ) ^ (-8 : Int)) = 1 / 256 := by norm_num [zpow_neg]
  refine ⟨⟨1, -8, by norm_num, by norm_num, by norm_num, ?_⟩,
    ⟨(adjValue : Int) - 128, 0, ?_, by norm_num, by norm_num, by simp⟩,
    ⟨(adjValue : Int) - 128, -8, ?_, by norm_num, by norm_num, ?_⟩,
    ⟨(adjValue : Int) + 128, -8, ?_, by norm_num, by norm_num, ?_⟩,
    ⟨axis, 0, ?_, by norm_num, by norm_num, by simp⟩,
    ⟨axis * ((adjValue : Int) + 128), -8, ?_, by norm_num, by norm_num, ?_⟩⟩
  · rw [h8]; norm_num [magAdjust.factor]
  · rw [abs_lt]; constructor <;> omega
  · rw [abs_lt]; constructor <;> omega
  · rw [h8]; unfold magAdjust.factor; push_cast; ring
  · rw [abs_lt]; constructor <;> omega
  · rw [h8, magAdjust_scale_eq]; push_cast; ring
  · rw [abs_lt]; constructor <;> omega
  · have hb : (0 : Int) ≤ (adjValue : Int) + 128 := by omega
    have hb2 : (adjValue : Int) + 128 ≤ 383 := by omega
    rw [abs_mul, abs_of_nonneg hb]
    have ha : |axis| ≤ 32768 := by rw [abs_le]; constructor <;> omega
    calc |axis| * ((adjValue : Int) + 128) ≤ 32768 * 383 :=
          mul_le_mul ha hb2 hb (by norm_num)
      _ < 2 ^ 24 := by norm_num
  · rw [h8, magAdjust_product_eq]; push_cast; ring

/-- C2: magnetometer adjustment is the identity for the trim byte 128: the
scale factor is exactly 1 and, for every `int16_t` value `axis`,
`magAdjust axis 128` is defined and equal to `axis`. -/
theorem magAdjust_128_identity (axis : Int) (haxis : IsInt16 axis) :
    magAdjust.scale 128 = 1 ∧ magAdjust axis 128 = some axis := by
  have hs : magAdjust.scale 128 = 1 := by norm_num [magAdjust.scale]
  refine ⟨hs, ?_⟩
  have ht : truncToZero (axis : ℚ) = axis := by
    unfold truncToZero
    split <;> simp
  unfold magAdjust floatToInt16
  rw [hs, mul_one, ht]
  exact if_pos haxis

theorem magAdjust_128_identity_witness :
    IsInt16 (-32768) ∧ magAdjust.scale 128 = 1 ∧ magAdjust (-32768) 128 = some (-32768) :=
  ⟨by decide, magAdjust_128_identity (-32768) (by decide)⟩

theorem magAdjust_mul_256 (k : Int) (adjValue : Nat)
    (hfit : IsInt16 (k * ((adjValue : Int) + 128))) :
    magAdjust (256 * k) adjValue = some (k * ((adjValue : Int) + 128)) := by
  have ht : Int.tdiv (256 * k * ((adjValue : Int) + 128)) 256 = k * ((adjValue : Int) + 128) := by
    rw [Int.mul_assoc]
    exact Int.mul_tdiv_cancel_left _ (by decide)
  rw [magAdjust_eq_tdiv (256 * k) adjValue (by rw [ht]; exact hfit), ht]

theorem isInt16_mul_of_le (k m : Int) (hk1 : -85 ≤ k) (hk2 : k ≤ 85) (hm1 : 0 ≤ m)
    (hm2 : m ≤ 383) : IsInt16 (k * m) := by
  have hk : |k| ≤ 85 := by rw [abs_le]; constructor <;> omega
  have hb : |k * m| ≤ 85 * 383 := by
    rw [abs_mul, abs_of_nonneg hm1]
    exact mul_le_mul hk hm2 hm1 (by norm_num)
  rw [abs_le] at hb
  unfold IsInt16 INT16_MIN INT16_MAX
  constructor <;> omega

/-- C3: the scale that `magAdjust` applies is symmetric around the trim byte
128.  For every `d` in 1..127 the factor for `128 + d` exceeds 1 by exactly
what the factor for `128 - d` falls below 1, namely `d / 256`; and this is the
factor of the results of `magAdjust`: on a raw value `256 * k` the trim byte
`128 + d` returns `256 * k + k * d` and the trim byte `128 - d` returns
`256 * k - k * d`, in particular `256 + d` and `256 - d` on the raw value
256. -/
theorem magAdjust_scale_symmetric (d : Nat) (h1 : 1 ≤ d) (h127 : d ≤ 127) :
    (magAdjust.scale (128 + d) - 1 = 1 - magAdjust.scale (128 - d) ∧
      1 - magAdjust.scale (128 - d) = (d : ℚ) / 256) ∧
    (∀ k : Int, -85 ≤ k → k ≤ 85 →
      magAdjust (256 * k) (128 + d) = some (256 * k + k * (d : Int)) ∧
      magAdjust (256 * k) (128 - d) = some (256 * k - k * (d : Int))) ∧
    (magAdjust 256 (128 + d) = some (256 + (d : Int)) ∧
      magAdjust 256 (128 - d) = some (256 - (d : Int))) := by
  have hsub : ((128 - d : Nat) : Int) = 128 - (d : Int) := by omega
  have hadd : ((128 + d : Nat) : Int) = 128 + (d : Int) := by omega
  have hres : ∀ k : Int, -85 ≤ k → k ≤ 85 →
      magAdjust (256 * k) (128 + d) = some (256 * k + k * d) ∧
      magAdjust (256 * k) (128 - d) = some (256 * k - k * d) := by
    intro k hk1 hk2
    constructor
    · rw [magAdjust_mul_256 k (128 + d)
        (isInt16_mul_of_le k _ hk1 hk2 (by omega) (by omega)), hadd]
      congr 1
      ring
    · rw [magAdjust_mul_256 k (128 - d)
        (isInt16_mul_of_le k _ hk1 hk2 (by omega) (by omega)), hsub]
      congr 1
      ring
  refine ⟨?_, hres, ?_⟩
  · unfold magAdjust.scale magAdjust.factor
    rw [hsub]
    push_cast
    constructor <;> ring
  · have h := hres 1 (by decide) (by decide)
    simpa using h

theorem magAdjust_scale_symmetric_witness :
    (1 ≤ 127 ∧ 127 ≤ 127) ∧
    (magAdjust.scale (128 + 127) - 1 = 1 - magAdjust.scale (128 - 127) ∧
      1 - magAdjust.scale (128 - 127) = ((127 : Nat) : ℚ) / 256) ∧
    (∀ k : Int, -85 ≤ k → k ≤ 85 →
      magAdjust (256 * k) (128 + 127) = some (256 * k + k * ((127 : Nat) : Int)) ∧
      magAdjust (256 * k) (128 - 127) = some (256 * k - k * ((127 : Nat) : Int))) ∧
    (magAdjust 256 (128 + 127) = some (256 + ((127 : Nat) : Int)) ∧
      magAdjust 256 (128 - 127) = some (256 - ((127 : Nat) : Int))) :=
  ⟨by decide, magAdjust_scale_symmetric 127 (by decide) (by decide)⟩

/-- C4: for every `int16_t` raw value and every `uint8_t` trim byte whose
adjusted value fits `int16_t`, `magAdjust` (with the precomputed factor
`0.5 / 128`), the reference helper `adjust` of the test-suite and the formula
of the specification, converted to `int16_t`, all give
`raw * (adj + 128) / 256` truncated toward zero; the floating product is an
exactly representable binary32 value, so the result does not depend on
rounding. -/
theorem magAdjust_refines_formula (raw : Int) (adj : Nat)
    (hraw : IsInt16 raw) (hadj : IsUInt8 adj)
    (hfit : IsInt16 (Int.tdiv (raw * ((adj : Int) + 128)) 256)) :
    magAdjust raw adj = some (Int.tdiv (raw * ((adj : Int) + 128)) 256) ∧
    test.adjust raw adj = some (Int.tdiv (raw * ((adj : Int) + 128)) 256) ∧
    floatToInt16 (magAdjustSpecFormula raw adj)
      = some (Int.tdiv (raw * ((adj : Int) + 128)) 256) ∧
    magAdjustSpecFormula raw adj = ((raw * ((adj : Int) + 128) : Int) : ℚ) / 256 ∧
    F32Exact ((raw : ℚ) * magAdjust.scale adj) := by
  have hm := magAdjust_eq_tdiv raw adj hfit
  refine ⟨hm, by rw [test_adjust_eq_magAdjust]; exact hm, ?_, ?_,
    (magAdjust_no_rounding raw adj hraw hadj).2.2.2.2.2⟩
  · rw [magAdjustSpecFormula_eq]
    exact hm
  · rw [magAdjustSpecFormula_eq, magAdjust_product_eq]
    norm_num

theorem magAdjust_refines_formula_witness :
    (IsInt16 (-3) ∧ IsUInt8 0 ∧ IsInt16 (Int.tdiv (-3 * (((0 : Nat) : Int) + 128)) 256)) ∧
    magAdjust (-3) 0 = some (Int.tdiv (-3 * (((0 : Nat) : Int) + 128)) 256) ∧
    test.adjust (-3) 0 = some (Int.tdiv (-3 * (((0 : Nat) : Int) + 128)) 256) ∧
    floatToInt16 (magAdjustSpecFormula (-3) 0)
      = some (Int.tdiv (-3 * (((0 : Nat) : Int) + 128)) 256) ∧
    magAdjustSpecFormula (-3) 0 = ((-3 * (((0 : Nat) : Int) + 128) : Int) : ℚ) / 256 ∧
    F32Exact (((-3 : Int) : ℚ) * magAdjust.scale 0) :=
  ⟨by decide, magAdjust_refines_formula (-3) 0 (by decide) (by decide) (by decide)⟩

/-- C15: when the trim byte does not amplify (`adjValue ≤ 128`) the scale factor
lies in `[1/2, 1]` and, for every `int16_t` value `axis`, `magAdjust` is
defined: its result has the sign of `axis` or is 0, its magnitude is at most
that of `axis`, and it is therefore in the `int16_t` range. -/
theorem magAdjust_no_overflow (axis : Int) (adjValue : Nat)
    (haxis : IsInt16 axis) (hadj : adjValue ≤ 128) :
    (1 / 2 ≤ magAdjust.scale adjValue ∧ magAdjust.scale adjValue ≤ 1) ∧
    ∃ r : Int, magAdjust axis adjValue = some r ∧
      (r = 0 ∨ Int.sign r = Int.sign axis) ∧ |r| ≤ |axis| ∧ IsInt16 r := by
  obtain ⟨hlo, hhi⟩ := haxis
  unfold INT16_MIN at hlo
  unfold INT16_MAX at hhi
  have hb1 : (128 : Int) ≤ (adjValue : Int) + 128 := by omega
  have hb2 : (adjValue : Int) + 128 ≤ 256 := by omega
  have hscale : 1 / 2 ≤ magAdjust.scale adjValue ∧ magAdjust.scale adjValue ≤ 1 := by
    rw [magAdjust_scale_eq]
    have h1 : ((128 : Int) : ℚ) ≤ (((adjValue : Int) + 128 : Int) : ℚ) := by exact_mod_cast hb1
    have h2 : (((adjValue : Int) + 128 : Int) : ℚ) ≤ ((256 : Int) : ℚ) := by exact_mod_cast hb2
    constructor
    · rw [le_div_iff₀ (by norm_num)]
      push_cast at h1 ⊢
      linarith
    · rw [div_le_iff₀ (by norm_num)]
      push_cast at h2 ⊢
      linarith
  refine ⟨hscale, ?_⟩
  have hbound : ∀ a : Int, 0 ≤ a →
      0 ≤ a * ((adjValue : Int) + 128) / 256 ∧ a * ((adjValue : Int) + 128) / 256 ≤ a := by
    intro a ha
    have hp0 : 0 ≤ a * ((adjValue : Int) + 128) := Int.mul_nonneg ha (by omega)
    have hp1 : a * ((adjValue : Int) + 128) ≤ a * 256 := Int.mul_le_mul_of_nonneg_left hb2 ha
    constructor <;> omega
  have key : ∃ r : Int, Int.tdiv (axis * ((adjValue : Int) + 128)) 256 = r ∧
      (r = 0 ∨ Int.sign r = Int.sign axis) ∧ |r| ≤ |axis| := by
    rcases le_or_lt 0 axis with ha | ha
    · obtain ⟨h0, h1⟩ := hbound axis ha
      refine ⟨axis * ((adjValue : Int) + 128) / 256,
        Int.tdiv_eq_ediv (Int.mul_nonneg ha (by omega)) (by norm_num), ?_, ?_⟩
      · rcases lt_or_eq_of_le h0 with hpos | hzero
        · right
          have hapos : 0 < axis := by omega
          rw [Int.sign_eq_one_of_pos hpos, Int.sign_eq_one_of_pos hapos]
        · left
          exact hzero.symm
      · rw [abs_of_nonneg h0, abs_of_nonneg ha]
        exact h1
    · obtain ⟨h0, h1⟩ := hbound (-axis) (by omega)
      have hneg : axis * ((adjValue : Int) + 128) = -(-axis * ((adjValue : Int) + 128)) := by
        ring
      have ht : Int.tdiv (axis * ((adjValue : Int) + 128)) 256
          = -(-axis * ((adjValue : Int) + 128) / 256) := by
        rw [hneg, Int.neg_tdiv,
          Int.tdiv_eq_ediv (Int.mul_nonneg (by omega) (by omega)) (by norm_num)]
      refine ⟨-(-axis * ((adjValue : Int) + 128) / 256), ht, ?_, ?_⟩
      · rcases lt_or_eq_of_le h0 with hpos | hzero
        · right
          rw [Int.sign_eq_neg_one_of_neg (by omega), Int.sign_eq_neg_one_of_neg ha]
        · left
          omega
      · rw [abs_of_nonpos (by omega), abs_of_neg ha]
        omega
  obtain ⟨r, hr, hsign, habs⟩ := key
  have hr16 : IsInt16 r := by
    have hax : |axis| ≤ 32768 := by rw [abs_le]; constructor <;> omega
    have hrabs : |r| ≤ 32768 := le_trans habs hax
    rw [abs_le] at hrabs
    have hr32768 : r ≠ 32768 := by
      intro h
      rw [h] at habs
      have h3 : |axis| = 32768 := by
        have : (32768 : Int) ≤ |axis| := by simpa using habs
        omega
      have h4 : axis = -32768 := by
        rcases abs_eq (by norm_num : (0 : Int) ≤ 32768) |>.mp h3 with h5 | h5 <;> omega
      rcases hsign with h6 | h6
      · omega
      · rw [h, h4] at h6
        exact absurd h6 (by decide)
    unfold IsInt16 INT16_MIN INT16_MAX
    constructor <;> omega
  refine ⟨r, ?_, hsign, habs, hr16⟩
  rw [magAdjust_eq_tdiv axis adjValue (by rw [hr]; exact hr16), hr]

theorem magAdjust_no_overflow_witness :
    (IsInt16 (-32768) ∧ 0 ≤ 128) ∧
    (1 / 2 ≤ magAdjust.scale 0 ∧ magAdjust.scale 0 ≤ 1) ∧
    ∃ r : Int, magAdjust (-32768) 0 = some r ∧
      (r = 0 ∨ Int.sign r = Int.sign (-32768)) ∧ |r| ≤ |(-32768 : Int)| ∧ IsInt16 r :=
  ⟨by decide, magAdjust_no_overflow (-32768) 0 (by decide) (by decide)⟩

end emd.mpu.math

namespace emd.mpu

/-! ## Configuration state machine -/

theorem Field.extract_insert (f : Field) (byte v : Nat)
    (hf : f.offset + f.width ≤ 8) (hv : v < 2 ^ f.width) :
    f.extract (f.insert byte v % 256) = v := by
  apply Nat.eq_of_testBit_eq
  intro i
  have h255 : (0xFF : Nat) = 2 ^ 8 - 1 := rfl
  have h256 : (256 : Nat) = 2 ^ 8 := rfl
  unfold Field.extract Field.insert Field.mask
  rw [h255, h256]
  simp only [Nat.testBit_shiftRight, Nat.testBit_and, Nat.testBit_mod_two_pow, Nat.testBit_or,
    Nat.testBit_xor, Nat.testBit_shiftLeft, Nat.testBit_two_pow_sub_one]
  by_cases hi : i < f.width
  · have h1 : f.offset + i < 8 := by omega
    have h2 : f.offset + i ≥ f.offset := by omega
    have h3 : f.offset + i - f.offset = i := by omega
    simp [hi, h1, h3]
  · have hfalse : v.testBit i = false :=
      Nat.testBit_lt_two_pow (lt_of_lt_of_le hv (Nat.pow_le_pow_right (by decide) (by omega)))
    have h3 : f.offset + i - f.offset = i := by omega
    simp [hi, hfalse, h3]

theorem Field.extract_whole (f : Field) (v : Nat)
    (hf : f.offset + f.width ≤ 8) (hw : f.width = 8) (hv : v < 2 ^ f.width) :
    f.extract (v % 256 % 256) = v := by
  have ho : f.offset = 0 := by omega
  apply Nat.eq_of_testBit_eq
  intro i
  have h256 : (256 : Nat) = 2 ^ 8 := rfl
  unfold Field.extract Field.mask
  rw [h256, ho, hw]
  simp only [Nat.testBit_shiftRight, Nat.testBit_and, Nat.testBit_mod_two_pow,
    Nat.testBit_shiftLeft, Nat.testBit_two_pow_sub_one]
  by_cases hi : i < 8
  · simp [hi]
  · have hfalse : v.testBit i = false :=
      Nat.testBit_lt_two_pow (lt_of_lt_of_le hv (Nat.pow_le_pow_right (by decide) (by omega)))
    simp [hi, hfalse]

theorem Device.setField_ok_iff (d : Device) (f : Field) (v : Nat) :
    (d.setField f v).1 = .OK ↔ v ∈ f.domain ∧ d.bus.fault = false := by
  unfold Device.setField Bus.readRegister Bus.writeRegister
  by_cases hv : v ∈ f.domain <;> by_cases hw : f.width = 8 <;>
    cases hfault : d.bus.fault <;> simp [hv, hw]

theorem Device.getField_setField (d : Device) (f : Field) (v : Nat)
    (hf : f.WellFormed) (hok : (d.setField f v).1 = .OK) :
    (d.setField f v).2.lastError = .OK ∧
    ((d.setField f v).2.getField f).1 = v ∧
    ((d.setField f v).2.getField f).2.lastError = .OK := by
  obtain ⟨hv, hfault⟩ := (Device.setField_ok_iff d f v).mp hok
  have hlt : v < 2 ^ f.width := hf.2 v hv
  have hr : List.range 1 = [0] := rfl
  by_cases hw : f.width = 8
  · have hx := Field.extract_whole f v hf.1 hw hlt
    rw [Nat.mod_mod] at hx
    simp [Device.setField, Device.getField, Device.lastError, Bus.readRegister,
      Bus.writeRegister, hv, hw, hfault, hr, hx]
  · have hx := Field.extract_insert f (d.bus.regs f.reg % 256) v hf.1 hlt
    simp [Device.setField, Device.getField, Device.lastError, Bus.readRegister,
      Bus.writeRegister, hv, hw, hfault, hr, hx]

/-- C10: set/get round trip of the configuration state machine.  For every
well-formed register map and every device handle, and for each of the pairs
sleep, clock source, digital low-pass filter, gyroscope full scale and
accelerometer full scale: after a successful `set v` the getter returns `v`
and `lastError` is `OK`. -/
theorem set_get_round_trip (m : RegisterMap) (hm : m.WellFormed) (d : Device) :
    (∀ enable : Bool, (d.setSleep m enable).1 = .OK →
      ((d.setSleep m enable).2.getSleep m).1 = enable ∧
      ((d.setSleep m enable).2.getSleep m).2.lastError = .OK) ∧
    (∀ clockSrc : Nat, (d.setClockSource m clockSrc).1 = .OK →
      ((d.setClockSource m clockSrc).2.getClockSource m).1 = clockSrc ∧
      ((d.setClockSource m clockSrc).2.getClockSource m).2.lastError = .OK) ∧
    (∀ dlpf : Nat, (d.setDigitalLowPassFilter m dlpf).1 = .OK →
      ((d.setDigitalLowPassFilter m dlpf).2.getDigitalLowPassFilter m).1 = dlpf ∧
      ((d.setDigitalLowPassFilter m dlpf).2.getDigitalLowPassFilter m).2.lastError = .OK) ∧
    (∀ fs : gyro_fs_t, (d.setGyroFullScale m fs).1 = .OK →
      ((d.setGyroFullScale m fs).2.getGyroFullScale m).1 = fs.val ∧
      ((d.setGyroFullScale m fs).2.getGyroFullScale m).2.lastError = .OK) ∧
    (∀ fs : accel_fs_t, (d.setAccelFullScale m fs).1 = .OK →
      ((d.setAccelFullScale m fs).2.getAccelFullScale m).1 = fs.val ∧
      ((d.setAccelFullScale m fs).2.getAccelFullScale m).2.lastError = .OK) := by
  obtain ⟨hsleep, hclock, hdlpf, hgyro, haccel⟩ := hm
  refine ⟨fun enable hok => ?_, fun v hok => ?_, fun v hok => ?_, fun fs hok => ?_,
    fun fs hok => ?_⟩
  · have h := Device.getField_setField d m.sleep (if enable then 1 else 0) hsleep hok
    unfold Device.getSleep Device.setSleep
    refine ⟨?_, h.2.2⟩
    rw [h.2.1]
    cases enable <;> rfl
  · exact (Device.getField_setField d m.clockSource v hclock hok).2
  · exact (Device.getField_setField d m.dlpf v hdlpf hok).2
  · exact (Device.getField_setField d m.gyroFullScale fs.val hgyro hok).2
  · exact (Device.getField_setField d m.accelFullScale fs.val haccel hok).2

theorem set_get_round_trip_witness :
    (sampleRegisterMap.WellFormed ∧ (sampleDevice.setClockSource sampleRegisterMap 3).1 = .OK) ∧
    ((sampleDevice.setClockSource sampleRegisterMap 3).2.getClockSource sampleRegisterMap).1 = 3 ∧
    ((sampleDevice.setClockSource sampleRegisterMap 3).2.getClockSource
      sampleRegisterMap).2.lastError = .OK :=
  ⟨⟨by decide, by decide⟩,
    (set_get_round_trip sampleRegisterMap (by decide) sampleDevice).2.1 3 (by decide)⟩

/-! ## Standby mode -/

theorem Field.insert_and_mask (f : Field) (byte v : Nat)
    (hf : f.offset + f.width ≤ 8) (hv : v < 2 ^ f.width) :
    (f.insert byte v % 256) &&& f.mask = v <<< f.offset := by
  apply Nat.eq_of_testBit_eq
  intro i
  have h255 : (0xFF : Nat) = 2 ^ 8 - 1 := rfl
  have h256 : (256 : Nat) = 2 ^ 8 := rfl
  unfold Field.insert Field.mask
  rw [h255, h256]
  simp only [Nat.testBit_and, Nat.testBit_mod_two_pow, Nat.testBit_or,
    Nat.testBit_xor, Nat.testBit_shiftLeft, Nat.testBit_two_pow_sub_one]
  by_cases hi : f.offset ≤ i
  · by_cases hw : i - f.offset < f.width
    · have h1 : i < 8 := by omega
      simp [hi, hw, h1]
    · have hfalse : v.testBit (i - f.offset) = false :=
        Nat.testBit_lt_two_pow (lt_of_lt_of_le hv (Nat.pow_le_pow_right (by decide) (by omega)))
      simp [hi, hw, hfalse]
  · simp [hi]

theorem Device.setField_ok_bus (d : Device) (f : Field) (v : Nat)
    (hok : (d.setField f v).1 = .OK) :
    (d.setField f v).2.bus.fault = false ∧
    (d.setField f v).2.err = .OK ∧
    (d.setField f v).2.bus.regs f.reg
      = (if f.width = 8 then v % 256 else f.insert (d.bus.regs f.reg % 256) v % 256) ∧
    ∀ a, a ≠ f.reg → (d.setField f v).2.bus.regs a = d.bus.regs a := by
  obtain ⟨hv, hfault⟩ := (Device.setField_ok_iff d f v).mp hok
  have hr : List.range 1 = [0] := rfl
  by_cases hw : f.width = 8
  · refine ⟨?_, ?_, ?_, ?_⟩
    · simp [Device.setField, Bus.writeRegister, hv, hw, hfault]
    · simp [Device.setField, Bus.writeRegister, hv, hw, hfault]
    · simp [Device.setField, Bus.writeRegister, hv, hw, hfault]
    · intro a ha
      have h2 : ¬ (f.reg ≤ a ∧ a < f.reg + 1) := by omega
      simp [Device.setField, Bus.writeRegister, hv, hw, hfault, h2]
  · refine ⟨?_, ?_, ?_, ?_⟩
    · simp [Device.setField, Bus.readRegister, Bus.writeRegister, hv, hw, hfault]
    · simp [Device.setField, Bus.readRegister, Bus.writeRegister, hv, hw, hfault]
    · simp [Device.setField, Bus.readRegister, Bus.writeRegister, hv, hw, hfault, hr]
    · intro a ha
      have h2 : ¬ (f.reg ≤ a ∧ a < f.reg + 1) := by omega
      simp [Device.setField, Bus.readRegister, Bus.writeRegister, hv, hw, hfault, h2]

theorem Device.getField_of_working (d : Device) (f : Field) (hfault : d.bus.fault = false) :
    (d.getField f).1 = f.extract (d.bus.regs f.reg % 256) ∧
    (d.getField f).2.err = .OK ∧
    (d.getField f).2.bus = d.bus := by
  have hr : List.range 1 = [0] := rfl
  simp [Device.getField, Bus.readRegister, hfault, hr]

theorem Device.readByte_of_working (d : Device) (reg : Nat) (hfault : d.bus.fault = false) :
    d.readByte reg = (.OK, d.bus.regs reg % 256) := by
  have hr : List.range 1 = [0] := rfl
  simp [Device.readByte, Bus.readRegister, hfault, hr]

set_option maxRecDepth 100000 in
theorem standby_mask_split :
    ∀ mask, mask < 256 →
      ((mask &&& (STBY_EN_TEMP ||| STBY_EN_LOWPWR_GYRO_PLL_ON)) >>> 3) >>> 3 < 4 ∧
      mask &&& (STBY_EN_ACCEL ||| STBY_EN_GYRO) < 64 ∧
      (((((mask &&& (STBY_EN_TEMP ||| STBY_EN_LOWPWR_GYRO_PLL_ON)) >>> 3) >>> 3) <<< 3) <<< 3
        ||| (mask &&& (STBY_EN_ACCEL ||| STBY_EN_GYRO))) = mask ∧
      ((((mask &&& (STBY_EN_TEMP ||| STBY_EN_LOWPWR_GYRO_PLL_ON)) >>> 3) >>> 3) <<< 3)
        &&& (1 <<< regs.PWR1_TEMP_DIS_BIT) = (mask &&& STBY_EN_TEMP) >>> 3 ∧
      ((((mask &&& (STBY_EN_TEMP ||| STBY_EN_LOWPWR_GYRO_PLL_ON)) >>> 3) >>> 3) <<< 3)
        &&& (1 <<< regs.PWR1_GYRO_STANDBY_BIT) = (mask &&& STBY_EN_LOWPWR_GYRO_PLL_ON) >>> 3 ∧
      ((mask &&& (STBY_EN_ACCEL ||| STBY_EN_GYRO)) <<< 0) &&& regs.PWR2_STBY_XYZA_BITS
        = mask &&& STBY_EN_ACCEL ∧
      ((mask &&& (STBY_EN_ACCEL ||| STBY_EN_GYRO)) <<< 0) &&& regs.PWR2_STBY_XYZG_BITS
        = mask &&& STBY_EN_GYRO := by
  decide

theorem Device.setStandbyMode_ok (d : Device) (r : PowerRegisters) (mask : Nat)
    (hr : r.PWR_MGMT1 ≠ r.PWR_MGMT2) (hok : (d.setStandbyMode r mask).1 = .OK) :
    mask < 256 ∧
    (d.setStandbyMode r mask).2.bus.fault = false ∧
    (d.setStandbyMode r mask).2.err = .OK ∧
    (d.setStandbyMode r mask).2.bus.regs r.PWR_MGMT1
      = r.standbyPwr1.insert (d.bus.regs r.PWR_MGMT1 % 256)
          (((mask &&& (STBY_EN_TEMP ||| STBY_EN_LOWPWR_GYRO_PLL_ON)) >>> 3) >>> 3) % 256 ∧
    (d.setStandbyMode r mask).2.bus.regs r.PWR_MGMT2
      = r.standbyPwr2.insert (d.bus.regs r.PWR_MGMT2 % 256)
          (mask &&& (STBY_EN_ACCEL ||| STBY_EN_GYRO)) % 256 := by
  have hlt : mask < 256 := by
    by_contra hge
    simp [Device.setStandbyMode, hge] at hok
  have hoff : r.standbyPwr1.offset = 3 := rfl
  rw [Device.setStandbyMode, if_pos hlt, hoff] at hok ⊢
  by_cases h1 : (d.setField r.standbyPwr1
      (((mask &&& (STBY_EN_TEMP ||| STBY_EN_LOWPWR_GYRO_PLL_ON)) >>> 3) >>> 3)).1 = .OK
  · rw [if_pos h1] at hok ⊢
    obtain ⟨_, _, ha1, hb1⟩ := Device.setField_ok_bus d r.standbyPwr1 _ h1
    obtain ⟨hf2, he2, ha2, hb2⟩ := Device.setField_ok_bus _ r.standbyPwr2 _ hok
    have hw1 : ¬ r.standbyPwr1.width = 8 := by
      show ¬ ((2 : Nat) = 8)
      decide
    have hw2 : ¬ r.standbyPwr2.width = 8 := by
      show ¬ ((6 : Nat) = 8)
      decide
    rw [if_neg hw1] at ha1
    rw [if_neg hw2] at ha2
    have hreg1 : r.standbyPwr1.reg = r.PWR_MGMT1 := rfl
    have hreg2 : r.standbyPwr2.reg = r.PWR_MGMT2 := rfl
    rw [hreg1] at ha1 hb1
    rw [hreg2] at ha2 hb2
    refine ⟨hlt, hf2, he2, ?_, ?_⟩
    · rw [hb2 r.PWR_MGMT1 hr, ha1]
    · rw [ha2, hb1 r.PWR_MGMT2 (Ne.symm hr)]
  · rw [if_neg h1] at hok
    exact absurd hok h1

/-- C11: standby mask round trip.  For every mask made of the bits accel
X/Y/Z, gyro X/Y/Z, temp and low-power-gyro-PLL, a successful
`setStandbyMode mask` is followed by `getStandbyMode` returning the identical
mask with no error; afterwards the temperature-disable and gyro-standby bits
of `PWR_MGMT1` equal the `TEMP` and `LOWPWR_GYRO_PLL_ON` bits of the mask
shifted right by 3, and the accelerometer and gyroscope standby bits of
`PWR_MGMT2` equal the accelerometer and gyroscope axis bits of the mask. -/
theorem standby_round_trip (r : PowerRegisters) (hr : r.PWR_MGMT1 ≠ r.PWR_MGMT2)
    (d : Device) (mask : Nat) (hok : (d.setStandbyMode r mask).1 = .OK) :
    ((d.setStandbyMode r mask).2.getStandbyMode r).1 = mask ∧
    ((d.setStandbyMode r mask).2.getStandbyMode r).2.lastError = .OK ∧
    ((d.setStandbyMode r mask).2.readByte r.PWR_MGMT1).1 = .OK ∧
    ((d.setStandbyMode r mask).2.readByte r.PWR_MGMT2).1 = .OK ∧
    (mask &&& STBY_EN_TEMP) >>> 3
      = ((d.setStandbyMode r mask).2.readByte r.PWR_MGMT1).2
          &&& (1 <<< regs.PWR1_TEMP_DIS_BIT) ∧
    (mask &&& STBY_EN_LOWPWR_GYRO_PLL_ON) >>> 3
      = ((d.setStandbyMode r mask).2.readByte r.PWR_MGMT1).2
          &&& (1 <<< regs.PWR1_GYRO_STANDBY_BIT) ∧
    mask &&& STBY_EN_ACCEL
      = ((d.setStandbyMode r mask).2.readByte r.PWR_MGMT2).2 &&& regs.PWR2_STBY_XYZA_BITS ∧
    mask &&& STBY_EN_GYRO
      = ((d.setStandbyMode r mask).2.readByte r.PWR_MGMT2).2 &&& regs.PWR2_STBY_XYZG_BITS := by
  obtain ⟨hlt, hfault, _, hp1, hp2⟩ := Device.setStandbyMode_ok d r mask hr hok
  obtain ⟨hv1, hv2, hjoin, ht, hg, ha, hgy⟩ := standby_mask_split mask hlt
  generalize (d.setStandbyMode r mask).2 = d2 at hfault hp1 hp2 ⊢
  have hwf1 : r.standbyPwr1.offset + r.standbyPwr1.width ≤ 8 := by
    show (3 : Nat) + 2 ≤ 8
    decide
  have hwf2 : r.standbyPwr2.offset + r.standbyPwr2.width ≤ 8 := by
    show (0 : Nat) + 6 ≤ 8
    decide
  have hreg1 : r.standbyPwr1.reg = r.PWR_MGMT1 := rfl
  have hreg2 : r.standbyPwr2.reg = r.PWR_MGMT2 := rfl
  have hoff1 : r.standbyPwr1.offset = 3 := rfl
  have hoff2 : r.standbyPwr2.offset = 0 := rfl
  have hm1 : r.standbyPwr1.mask &&& (1 <<< regs.PWR1_TEMP_DIS_BIT)
      = 1 <<< regs.PWR1_TEMP_DIS_BIT := by
    show (((2 ^ 2 - 1) <<< 3) &&& (1 <<< 3) : Nat) = 1 <<< 3
    decide
  have hm2 : r.standbyPwr1.mask &&& (1 <<< regs.PWR1_GYRO_STANDBY_BIT)
      = 1 <<< regs.PWR1_GYRO_STANDBY_BIT := by
    show (((2 ^ 2 - 1) <<< 3) &&& (1 <<< 4) : Nat) = 1 <<< 4
    decide
  have hm3 : r.standbyPwr2.mask &&& regs.PWR2_STBY_XYZA_BITS = regs.PWR2_STBY_XYZA_BITS := by
    show (((2 ^ 6 - 1) <<< 0) &&& (1 <<< 5 ||| 1 <<< 4 ||| 1 <<< 3) : Nat)
      = 1 <<< 5 ||| 1 <<< 4 ||| 1 <<< 3
    decide
  have hm4 : r.standbyPwr2.mask &&& regs.PWR2_STBY_XYZG_BITS = regs.PWR2_STBY_XYZG_BITS := by
    show (((2 ^ 6 - 1) <<< 0) &&& (1 <<< 2 ||| 1 <<< 1 ||| 1 <<< 0) : Nat)
      = 1 <<< 2 ||| 1 <<< 1 ||| 1 <<< 0
    decide
  -- contents of the two registers after the setter
  have hx1 := Field.extract_insert r.standbyPwr1 (d.bus.regs r.PWR_MGMT1 % 256) _ hwf1
    (show _ < 2 ^ r.standbyPwr1.width from hv1)
  have hx2 := Field.extract_insert r.standbyPwr2 (d.bus.regs r.PWR_MGMT2 % 256) _ hwf2
    (show _ < 2 ^ r.standbyPwr2.width from hv2)
  have hi1 := Field.insert_and_mask r.standbyPwr1 (d.bus.regs r.PWR_MGMT1 % 256) _ hwf1
    (show _ < 2 ^ r.standbyPwr1.width from hv1)
  have hi2 := Field.insert_and_mask r.standbyPwr2 (d.bus.regs r.PWR_MGMT2 % 256) _ hwf2
    (show _ < 2 ^ r.standbyPwr2.width from hv2)
  rw [← hp1] at hx1 hi1
  rw [← hp2] at hx2 hi2
  rw [hoff1] at hi1
  rw [hoff2] at hi2
  have hb1 : d2.bus.regs r.PWR_MGMT1 % 256 = d2.bus.regs r.PWR_MGMT1 := by
    rw [hp1, Nat.mod_mod]
  have hb2 : d2.bus.regs r.PWR_MGMT2 % 256 = d2.bus.regs r.PWR_MGMT2 := by
    rw [hp2, Nat.mod_mod]
  -- the getter
  obtain ⟨hg1v, hg1e, hg1b⟩ := Device.getField_of_working d2 r.standbyPwr1 hfault
  obtain ⟨hg2v, hg2e, _⟩ := Device.getField_of_working (d2.getField r.standbyPwr1).2
    r.standbyPwr2 (by rw [hg1b]; exact hfault)
  rw [hg1b, hreg2, hb2, hx2] at hg2v
  rw [hreg1, hb1, hx1] at hg1v
  have hget : (d2.getStandbyMode r).1 = mask ∧ (d2.getStandbyMode r).2.lastError = .OK := by
    unfold Device.getStandbyMode Device.lastError
    rw [if_pos hg1e, hg1v, hg2v, hoff1]
    exact ⟨hjoin, hg2e⟩
  rw [Device.readByte_of_working d2 _ hfault, Device.readByte_of_working d2 _ hfault, hb1, hb2]
  refine ⟨hget.1, hget.2, rfl, rfl, ?_, ?_, ?_, ?_⟩
  · show _ = d2.bus.regs r.PWR_MGMT1 &&& _
    rw [← ht, ← hi1, Nat.and_assoc, hm1]
  · show _ = d2.bus.regs r.PWR_MGMT1 &&& _
    rw [← hg, ← hi1, Nat.and_assoc, hm2]
  · show _ = d2.bus.regs r.PWR_MGMT2 &&& _
    rw [← ha, ← hi2, Nat.and_assoc, hm3]
  · show _ = d2.bus.regs r.PWR_MGMT2 &&& _
    rw [← hgy, ← hi2, Nat.and_assoc, hm4]

theorem standby_round_trip_witness :
    (samplePowerRegisters.PWR_MGMT1 ≠ samplePowerRegisters.PWR_MGMT2 ∧
      (sampleDevice.setStandbyMode samplePowerRegisters
        (STBY_EN_ACCEL_X ||| STBY_EN_GYRO_Y ||| STBY_EN_TEMP
          ||| STBY_EN_LOWPWR_GYRO_PLL_ON)).1 = .OK) ∧
    ((sampleDevice.setStandbyMode samplePowerRegisters
        (STBY_EN_ACCEL_X ||| STBY_EN_GYRO_Y ||| STBY_EN_TEMP
          ||| STBY_EN_LOWPWR_GYRO_PLL_ON)).2.getStandbyMode samplePowerRegisters).1
      = STBY_EN_ACCEL_X ||| STBY_EN_GYRO_Y ||| STBY_EN_TEMP ||| STBY_EN_LOWPWR_GYRO_PLL_ON :=
  ⟨⟨by decide, by decide⟩,
    (standby_round_trip samplePowerRegisters (by decide) sampleDevice
      (STBY_EN_ACCEL_X ||| STBY_EN_GYRO_Y ||| STBY_EN_TEMP ||| STBY_EN_LOWPWR_GYRO_PLL_ON)
      (by decide)).1⟩

/-! ## FIFO -/

theorem fifoPacketSize_accel_gyro_temperature (slaveLength : Nat → Nat) :
    fifoPacketSize (FIFO_CFG_ACCEL ||| FIFO_CFG_GYRO ||| FIFO_CFG_TEMPERATURE) slaveLength
      = 14 := rfl

theorem fifoPacketSize_accel_temperature (slaveLength : Nat → Nat) :
    fifoPacketSize (FIFO_CFG_ACCEL ||| FIFO_CFG_TEMPERATURE) slaveLength = 8 := rfl

theorem fifoPacketSize_gyro (slaveLength : Nat → Nat) :
    fifoPacketSize FIFO_CFG_GYRO slaveLength = 6 := rfl

theorem fifoPacketSize_slaves (slaveLength : Nat → Nat) :
    fifoPacketSize (FIFO_CFG_SLAVE0 ||| FIFO_CFG_SLAVE1 ||| FIFO_CFG_SLAVE2 ||| FIFO_CFG_SLAVE3)
        slaveLength
      = slaveLength 0 + slaveLength 1 + slaveLength 2 + slaveLength 3 := by
  show 0 + 0 + 0 + 0 + 0 + slaveLength 0 + slaveLength 1 + slaveLength 2 + slaveLength 3 = _
  omega

/-- The scenario of the FIFO test of the test-suite: only slave channel 0 is
configured, with read length 2, so the four slave sources make a packet of 2
bytes (`countArray[3] == 2`). -/
theorem fifoPacketSize_slaves_test_scenario :
    fifoPacketSize (FIFO_CFG_SLAVE0 ||| FIFO_CFG_SLAVE1 ||| FIFO_CFG_SLAVE2 ||| FIFO_CFG_SLAVE3)
        (fun i => if i = 0 then 2 else 0) = 2 := by
  rw [fifoPacketSize_slaves]
  rfl

set_option maxRecDepth 100000 in
theorem fifo_config_split :
    ∀ config, config < 512 →
      config &&& 0xFF < 256 ∧ config >>> 8 < 2 ∧
      (config &&& 0xFF) ||| ((config >>> 8) <<< 8) = config := by
  decide

theorem Device.setFIFOConfig_ok (d : Device) (r : FifoRegisters) (config : Nat)
    (hr : r.WellFormed) (hok : (d.setFIFOConfig r config).1 = .OK) :
    config < 512 ∧
    (d.setFIFOConfig r config).2.bus.fault = false ∧
    (d.setFIFOConfig r config).2.err = .OK ∧
    (d.setFIFOConfig r config).2.bus.regs r.FIFO_EN = (config &&& 0xFF) % 256 ∧
    (d.setFIFOConfig r config).2.bus.regs r.I2C_MST_CTRL
      = r.slave3Enable.insert (d.bus.regs r.I2C_MST_CTRL % 256) (config >>> 8) % 256 := by
  obtain ⟨_, _, hne, _⟩ := hr
  have hlt : config < 512 := by
    by_contra hge
    simp [Device.setFIFOConfig, hge] at hok
  rw [Device.setFIFOConfig, if_pos hlt] at hok ⊢
  by_cases h1 : (d.setField r.fifoEnable (config &&& 0xFF)).1 = .OK
  · rw [if_pos h1] at hok ⊢
    obtain ⟨_, _, ha1, hb1⟩ := Device.setField_ok_bus d r.fifoEnable _ h1
    obtain ⟨hf2, he2, ha2, hb2⟩ := Device.setField_ok_bus _ r.slave3Enable _ hok
    have hw1 : r.fifoEnable.width = 8 := rfl
    have hw2 : ¬ r.slave3Enable.width = 8 := by
      show ¬ ((1 : Nat) = 8)
      decide
    rw [if_pos hw1] at ha1
    rw [if_neg hw2] at ha2
    have hreg1 : r.fifoEnable.reg = r.FIFO_EN := rfl
    have hreg2 : r.slave3Enable.reg = r.I2C_MST_CTRL := rfl
    rw [hreg1] at ha1 hb1
    rw [hreg2] at ha2 hb2
    refine ⟨hlt, hf2, he2, ?_, ?_⟩
    · rw [hb2 r.FIFO_EN hne, ha1]
    · rw [ha2, hb1 r.I2C_MST_CTRL (Ne.symm hne)]
  · rw [if_neg h1] at hok
    exact absurd hok h1

theorem Device.getFIFOConfig_of_regs (d : Device) (r : FifoRegisters) (config old : Nat)
    (hr : r.WellFormed) (hlt : config < 512) (hfault : d.bus.fault = false)
    (hen : d.bus.regs r.FIFO_EN = (config &&& 0xFF) % 256)
    (hmst : d.bus.regs r.I2C_MST_CTRL = r.slave3Enable.insert old (config >>> 8) % 256) :
    (d.getFIFOConfig r).1 = config ∧ (d.getFIFOConfig r).2.lastError = .OK := by
  obtain ⟨hbit, _⟩ := hr
  obtain ⟨hlo, hhi, hjoin⟩ := fifo_config_split config hlt
  have hwf1 : r.fifoEnable.offset + r.fifoEnable.width ≤ 8 := by
    show (0 : Nat) + 8 ≤ 8
    decide
  have hwf2 : r.slave3Enable.offset + r.slave3Enable.width ≤ 8 := by
    show r.I2CMST_CTRL_SLV_3_FIFO_EN_BIT + 1 ≤ 8
    omega
  have hx1 := Field.extract_whole r.fifoEnable (config &&& 0xFF) hwf1 rfl
    (show _ < 2 ^ r.fifoEnable.width from hlo)
  have hx2 := Field.extract_insert r.slave3Enable old (config >>> 8) hwf2
    (show _ < 2 ^ r.slave3Enable.width from hhi)
  obtain ⟨hg1v, hg1e, hg1b⟩ := Device.getField_of_working d r.fifoEnable hfault
  obtain ⟨hg2v, hg2e, _⟩ := Device.getField_of_working (d.getField r.fifoEnable).2
    r.slave3Enable (by rw [hg1b]; exact hfault)
  have hreg1 : r.fifoEnable.reg = r.FIFO_EN := rfl
  have hreg2 : r.slave3Enable.reg = r.I2C_MST_CTRL := rfl
  rw [hreg1, hen, hx1] at hg1v
  rw [hg1b, hreg2, hmst, Nat.mod_mod, hx2] at hg2v
  unfold Device.getFIFOConfig Device.lastError
  rw [if_pos hg1e, hg1v, hg2v]
  exact ⟨hjoin, hg2e⟩

theorem Device.resetFIFO_ok (d : Device) (r : FifoRegisters)
    (hok : (d.resetFIFO r).1 = .OK) :
    (d.resetFIFO r).2.bus.fault = false ∧
    (d.resetFIFO r).2.bus.regs r.FIFO_COUNT_H = 0 ∧
    (d.resetFIFO r).2.bus.regs (r.FIFO_COUNT_H + 1) = 0 ∧
    ∀ a, a ≠ r.FIFO_COUNT_H → a ≠ r.FIFO_COUNT_H + 1 → a ≠ r.USER_CTRL →
      (d.resetFIFO r).2.bus.regs a = d.bus.regs a := by
  by_cases h1 : (d.setField r.fifoReset 1).1 = .OK
  · obtain ⟨hf, _, _, hb⟩ := Device.setField_ok_bus d r.fifoReset 1 h1
    have hreg : r.fifoReset.reg = r.USER_CTRL := rfl
    rw [hreg] at hb
    rw [Device.resetFIFO, if_pos h1]
    refine ⟨hf, ?_, ?_, ?_⟩
    · simp [Bus.fifoResetPulse]
    · simp [Bus.fifoResetPulse]
    · intro a h2 h3 h4
      simp [Bus.fifoResetPulse, h2, h3, h4, hb a h4]
  · rw [Device.resetFIFO, if_neg h1] at hok
    exact absurd hok h1

theorem Device.getFIFOCount_of_empty (d : Device) (r : FifoRegisters)
    (hfault : d.bus.fault = false) (hh : d.bus.regs r.FIFO_COUNT_H = 0)
    (hl : d.bus.regs (r.FIFO_COUNT_H + 1) = 0) :
    (d.getFIFOCount r).1 = 0 ∧ (d.getFIFOCount r).2.lastError = .OK := by
  have hr : List.range 2 = [0, 1] := rfl
  simp [Device.getFIFOCount, Device.lastError, Bus.readRegister, hfault, hr, hh, hl]

/-- C12: FIFO packet size and configuration round trip.  After a successful
`setFIFOConfig config` the getter `getFIFOConfig` returns exactly `config`;
after the `resetFIFO` that follows the byte count is zero and the
configuration is still `config`.  The packet of the enabled sources has 14
bytes for accel, gyro and temperature, 8 for accel and temperature, 6 for the
gyro alone, and 8 for the four auxiliary slaves when each returns 2 bytes. -/
theorem fifo_config_round_trip_and_packet_size (r : FifoRegisters) (hr : r.WellFormed)
    (d : Device) (config : Nat)
    (hset : (d.setFIFOConfig r config).1 = .OK)
    (hreset : ((d.setFIFOConfig r config).2.resetFIFO r).1 = .OK) :
    (((d.setFIFOConfig r config).2.getFIFOConfig r).1 = config ∧
      ((d.setFIFOConfig r config).2.getFIFOConfig r).2.lastError = .OK) ∧
    ((((d.setFIFOConfig r config).2.resetFIFO r).2.getFIFOConfig r).1 = config ∧
      (((d.setFIFOConfig r config).2.resetFIFO r).2.getFIFOConfig r).2.lastError = .OK) ∧
    ((((d.setFIFOConfig r config).2.resetFIFO r).2.getFIFOCount r).1 = 0 ∧
      (((d.setFIFOConfig r config).2.resetFIFO r).2.getFIFOCount r).2.lastError = .OK) ∧
    (∀ slaveLength : Nat → Nat,
      (config = FIFO_CFG_ACCEL ||| FIFO_CFG_GYRO ||| FIFO_CFG_TEMPERATURE →
        fifoPacketSize (((d.setFIFOConfig r config).2.resetFIFO r).2.getFIFOConfig r).1
          slaveLength = 14) ∧
      (config = FIFO_CFG_ACCEL ||| FIFO_CFG_TEMPERATURE →
        fifoPacketSize (((d.setFIFOConfig r config).2.resetFIFO r).2.getFIFOConfig r).1
          slaveLength = 8) ∧
      (config = FIFO_CFG_GYRO →
        fifoPacketSize (((d.setFIFOConfig r config).2.resetFIFO r).2.getFIFOConfig r).1
          slaveLength = 6) ∧
      (config = FIFO_CFG_SLAVE0 ||| FIFO_CFG_SLAVE1 ||| FIFO_CFG_SLAVE2 ||| FIFO_CFG_SLAVE3 →
        (∀ i, i < 4 → slaveLength i = 2) →
        fifoPacketSize (((d.setFIFOConfig r config).2.resetFIFO r).2.getFIFOConfig r).1
          slaveLength = 8)) := by
  obtain ⟨hlt, hfault, _, hen, hmst⟩ := Device.setFIFOConfig_ok d r config hr hset
  obtain ⟨hf2, hh, hl, hframe⟩ := Device.resetFIFO_ok _ r hreset
  have hr0 := hr
  obtain ⟨_, _, _, h1, h2, h3, h4, h5, h6, _, _⟩ := hr0
  have hget1 := Device.getFIFOConfig_of_regs _ r config _ hr hlt hfault hen hmst
  have hen2 := hframe r.FIFO_EN (Ne.symm h3) (Ne.symm h4) (Ne.symm h1)
  have hmst2 := hframe r.I2C_MST_CTRL (Ne.symm h5) (Ne.symm h6) (Ne.symm h2)
  rw [hen] at hen2
  rw [hmst] at hmst2
  have hget2 := Device.getFIFOConfig_of_regs _ r config _ hr hlt hf2 hen2 hmst2
  refine ⟨hget1, hget2, Device.getFIFOCount_of_empty _ r hf2 hh hl, fun slaveLength => ?_⟩
  rw [hget2.1]
  refine ⟨fun hc => ?_, fun hc => ?_, fun hc => ?_, fun hc hs => ?_⟩
  · rw [hc]
    exact fifoPacketSize_accel_gyro_temperature slaveLength
  · rw [hc]
    exact fifoPacketSize_accel_temperature slaveLength
  · rw [hc]
    exact fifoPacketSize_gyro slaveLength
  · rw [hc, fifoPacketSize_slaves, hs 0 (by decide), hs 1 (by decide), hs 2 (by decide),
      hs 3 (by decide)]

theorem fifo_config_round_trip_and_packet_size_witness :
    (sampleFifoRegisters.WellFormed ∧
      (sampleDevice.setFIFOConfig sampleFifoRegisters
        (FIFO_CFG_SLAVE0 ||| FIFO_CFG_SLAVE1 ||| FIFO_CFG_SLAVE2 ||| FIFO_CFG_SLAVE3)).1 = .OK ∧
      ((sampleDevice.setFIFOConfig sampleFifoRegisters
        (FIFO_CFG_SLAVE0 ||| FIFO_CFG_SLAVE1 ||| FIFO_CFG_SLAVE2 ||| FIFO_CFG_SLAVE3)).2.resetFIFO
          sampleFifoRegisters).1 = .OK) ∧
    fifoPacketSize
      (((sampleDevice.setFIFOConfig sampleFifoRegisters
        (FIFO_CFG_SLAVE0 ||| FIFO_CFG_SLAVE1 ||| FIFO_CFG_SLAVE2 ||| FIFO_CFG_SLAVE3)).2.resetFIFO
          sampleFifoRegisters).2.getFIFOConfig sampleFifoRegisters).1 (fun _ => 2) = 8 :=
  ⟨⟨by decide, by decide, by decide⟩,
    ((fifo_config_round_trip_and_packet_size sampleFifoRegisters (by decide) sampleDevice
      (FIFO_CFG_SLAVE0 ||| FIFO_CFG_SLAVE1 ||| FIFO_CFG_SLAVE2 ||| FIFO_CFG_SLAVE3)
      (by decide) (by decide)).2.2.2 (fun _ => 2)).2.2.2 rfl (fun _ _ => rfl)⟩

end emd.mpu
